import Mathlib

/-!
Verification of the MeshGateway reconciliation controller
(control-plane/controllers/resources/mesh_gateway_controller.go).

The controller converges one MeshGateway parent onto five child resources
(ServiceAccount, Role, RoleBinding, Service, Deployment) held in an external
object store.  We embed the controller's pure decision logic shallowly:

* Kubernetes objects become Lean structures carrying the metadata the
  controller inspects (namespace, name, annotations, owner references)
  plus representative payload fields;
* the store becomes an association list from object keys to objects,
  one sub-store per child kind;
* `opIfNewOrOwned`, `areServicesEqual`, `mergeService`,
  `getGatewayClassForGateway`, `getGatewayClassConfigForGatewayClass` and the
  `onCreateUpdate` pipeline are translated function-by-function from the Go
  source;
* external collaborators (the gateways builder package and the platform
  client) are parameters: the builder is a record of the per-kind payloads it
  produces for this reconcile, store lookups are `GetOutcome` values, and the
  store write performed by `controllerutil.CreateOrUpdate` is modelled from
  the spec's Store Adapter interface as a map update.

The run is instrumented with logs (attempted kinds, merge invocations,
written owner-reference lists) so that ordering and ownership claims are
stated about observable traces rather than about syntax.
-/

namespace MeshGatewayController

/-- An owner reference as the controller compares it: the owning object's
UID and name (`reference.UID == gateway.GetUID() && reference.Name ==
gateway.GetName()`). -/
structure OwnerReference where
  uid : Nat
  name : String
deriving DecidableEq, Repr

/-- A store lookup key: namespace plus name, as built in `opIfNewOrOwned`
from the write source's metadata. -/
structure ObjectKey where
  ns : String
  name : String
deriving DecidableEq, Repr

/-- The reconciling parent's identity (`gateway.GetUID()`,
`gateway.GetName()`, and its namespace). -/
structure ParentIdentity where
  ns : String
  name : String
  uid : Nat
deriving DecidableEq, Repr

/-- The owner reference derived from the parent, as stamped onto every
written child. -/
def parentRef (gw : ParentIdentity) : OwnerReference :=
  { uid := gw.uid, name := gw.name }

/-- The slice of Kubernetes object metadata the controller reads or writes:
namespace, name, the annotation map, and the owner-reference list. -/
structure ObjectMeta where
  ns : String
  name : String
  annotations : List (String × String)
  ownerReferences : List OwnerReference
deriving DecidableEq, Repr

/-- One entry of a Service's port list.  The controller compares only
`Port` and `Protocol`; `name` and `targetPort` stand for the fields it
ignores. -/
structure ServicePort where
  name : String
  port : Int
  protocol : String
  targetPort : Int
deriving DecidableEq, Repr

/-- A `corev1.Service` as the controller sees it: metadata, the port list,
and representative further spec fields (`selector`, `serviceType`,
`clusterIP`) that the merge must leave untouched. -/
structure Service where
  meta : ObjectMeta
  ports : List ServicePort
  selector : List (String × String)
  serviceType : String
  clusterIP : String
deriving DecidableEq, Repr

/-- First-match lookup in an annotation map represented as an association
list. -/
def lookupAnn (m : List (String × String)) (k : String) : Option String :=
  match m with
  | [] => none
  | (k2, v) :: rest => if k2 == k then some v else lookupAnn rest k

/-- `equality.Semantic.DeepEqual` on two annotation maps: the maps agree on
every key of either (Go maps are extensional; the association lists here
represent maps, so keys are not repeated). -/
def annMapsEqual (a b : List (String × String)) : Bool :=
  (a.all fun p => lookupAnn b p.1 == some p.2) &&
    (b.all fun p => lookupAnn a p.1 == some p.2)

/-- The indexed port walk of `areServicesEqual`: for each position, `Port`
and `Protocol` must agree (run under a preceding length check, so `zip`
loses nothing). -/
def portsMatch (a b : List ServicePort) : Bool :=
  (a.zip b).all fun pq => pq.1.port == pq.2.port && pq.1.protocol == pq.2.protocol

/-- `areServicesEqual` from the source: nil pointers compare equal; else
annotation maps must be deeply equal, the port lists must have one length,
and each aligned pair of ports must agree on port number and protocol. -/
def areServicesEqual (a b : Option Service) : Bool :=
  match a, b with
  | none, _ => true
  | _, none => true
  | some a, some b =>
    if !annMapsEqual a.meta.annotations b.meta.annotations then false
    else if b.ports.length != a.ports.length then false
    else portsMatch a.ports b.ports

/-- The two assignments of `mergeService`'s non-equal branch:
`to.Annotations = from.Annotations; to.Spec.Ports = from.Spec.Ports`. -/
def overwriteAnnPorts (f t : Service) : Service :=
  { t with
      meta := { t.meta with annotations := f.meta.annotations },
      ports := f.ports }

/-- `mergeService` from the source: keep the annotations and ports of the
`fromSvc` (observed) Service on the `toSvc` (desired) Service, so that
platform-injected values are not fought over; when the compared fields
already agree (or either pointer is nil) return `toSvc` unchanged. -/
def mergeService (fromSvc toSvc : Option Service) : Option Service :=
  if areServicesEqual fromSvc toSvc then toSvc
  else
    match fromSvc, toSvc with
    | some f, some t => some (overwriteAnnPorts f t)
    | _, _ => toSvc

/-- The projection on which the port lists are compared. -/
def portProj (p : ServicePort) : Int × String := (p.port, p.protocol)

/-- A `corev1.ServiceAccount`: metadata plus a representative payload
field. -/
structure ServiceAccount where
  meta : ObjectMeta
  secrets : List String
deriving DecidableEq, Repr

/-- An `rbacv1.Role`: metadata plus its rules (opaque here). -/
structure Role where
  meta : ObjectMeta
  rules : List String
deriving DecidableEq, Repr

/-- An `rbacv1.RoleBinding`: metadata, the bound role, the subjects. -/
structure RoleBinding where
  meta : ObjectMeta
  roleRef : String
  subjects : List String
deriving DecidableEq, Repr

/-- An `appsv1.Deployment`: metadata plus opaque payload fields; its
content is produced and merged by the external gateways package. -/
structure Deployment where
  meta : ObjectMeta
  replicas : Int
  podSpec : String
deriving DecidableEq, Repr

/-- Access to the metadata shared by every child object type
(`client.Object` in the source); `meta_withRefs` states that updating the
owner references changes nothing else in the metadata. -/
class HasMeta (α : Type) where
  meta : α → ObjectMeta
  withRefs : α → List OwnerReference → α
  meta_withRefs : ∀ o refs,
    meta (withRefs o refs) = { meta o with ownerReferences := refs }

instance : HasMeta ServiceAccount where
  meta := ServiceAccount.meta
  withRefs o refs := { o with meta := { o.meta with ownerReferences := refs } }
  meta_withRefs _ _ := rfl

instance : HasMeta Role where
  meta := Role.meta
  withRefs o refs := { o with meta := { o.meta with ownerReferences := refs } }
  meta_withRefs _ _ := rfl

instance : HasMeta RoleBinding where
  meta := RoleBinding.meta
  withRefs o refs := { o with meta := { o.meta with ownerReferences := refs } }
  meta_withRefs _ _ := rfl

instance : HasMeta Service where
  meta := Service.meta
  withRefs o refs := { o with meta := { o.meta with ownerReferences := refs } }
  meta_withRefs _ _ := rfl

instance : HasMeta Deployment where
  meta := Deployment.meta
  withRefs o refs := { o with meta := { o.meta with ownerReferences := refs } }
  meta_withRefs _ _ := rfl

/-- The store key of an object, from its namespace and name (the key
`opIfNewOrOwned` builds from the write source). -/
def objKey [HasMeta α] (a : α) : ObjectKey :=
  { ns := (HasMeta.meta a).ns, name := (HasMeta.meta a).name }

/-- Modelled from the spec: `ctrl.SetControllerReference`
(controller-runtime, external to this repository) — "Stamp `desiredPayload`
with an OwnerReference derived from `parentIdentity`".  Inserts the
parent's owner reference into the object's owner-reference list when it is
not already present. -/
def setControllerReference [HasMeta α] (gw : ParentIdentity) (obj : α) : α :=
  let refs := (HasMeta.meta obj).ownerReferences
  if parentRef gw ∈ refs then obj
  else HasMeta.withRefs obj (refs ++ [parentRef gw])

/-- The ownership test of `opIfNewOrOwned`: some stored owner reference
matches both the parent's UID and the parent's name. -/
def hasOwnerRef (gw : ParentIdentity) (refs : List OwnerReference) : Bool :=
  refs.any fun ref => ref.uid == gw.uid && ref.name == gw.name

/-- Lookup in one kind's sub-store. -/
def storeGet (sub : List (ObjectKey × α)) (k : ObjectKey) : Option α :=
  match sub with
  | [] => none
  | (k2, v) :: rest => if k2 = k then some v else storeGet rest k

/-- Modelled from the spec: the Store Adapter's `createOrUpdate(object)` (the
`controllerutil.CreateOrUpdate` calls, external to this repository) —
"Write the final payload via the Store Adapter (create if `observed` was
absent, update otherwise)".  A map update on the sub-store. -/
def storePut (sub : List (ObjectKey × α)) (k : ObjectKey) (v : α) :
    List (ObjectKey × α) :=
  match sub with
  | [] => [(k, v)]
  | (k2, v2) :: rest =>
    if k2 = k then (k, v) :: rest else (k2, v2) :: storePut rest k v

/-- The errors the pipeline can surface: `errResourceNotOwned`, a store
lookup failure that is not "not found", a builder failure, and the
`fmt.Errorf` context wrapping done by `onCreateUpdate`. -/
inductive OpError where
  | notOwned
  | storeError (code : Nat)
  | buildError (msg : String)
  | wrapped (step : String) (err : OpError)
deriving DecidableEq, Repr

/-- What a successful `opIfNewOrOwned` produced: the updated sub-store, the
existing object passed to the operation (`nil` on the create path), the
stamped write source, and the object the operation wrote. -/
structure UpsertOutcome (α : Type) where
  sub : List (ObjectKey × α)
  observed : Option α
  stamped : α
  written : α
deriving Repr

/-- `opIfNewOrOwned` from the source: stamp the write source with the
parent's owner reference, look up the write source's key, create when
absent, and otherwise update only when some existing owner reference
matches the parent's UID and name — else fail with `errResourceNotOwned`
and write nothing.  The operation `op` receives the existing object (or
`none`) and the stamped write source and yields the object to write. -/
def opIfNewOrOwned [HasMeta α] (gw : ParentIdentity)
    (sub : List (ObjectKey × α)) (writeSource : α)
    (op : Option α → α → α) : Except OpError (UpsertOutcome α) :=
  let stamped := setControllerReference gw writeSource
  let key := objKey stamped
  match storeGet sub key with
  | none =>
    let w := op none stamped
    .ok { sub := storePut sub (objKey w) w, observed := none,
          stamped := stamped, written := w }
  | some existing =>
    if hasOwnerRef gw (HasMeta.meta existing).ownerReferences then
      let w := op (some existing) stamped
      .ok { sub := storePut sub (objKey w) w, observed := some existing,
            stamped := stamped, written := w }
    else .error .notOwned

/-- The fixed, closed set of child kinds. -/
inductive ChildKind where
  | serviceAccount
  | role
  | roleBinding
  | service
  | deployment
deriving DecidableEq, Repr

/-- The order in which `onCreateUpdate` attempts the child upserts. -/
def kindOrder : List ChildKind :=
  [.serviceAccount, .role, .roleBinding, .service, .deployment]

/-- The external object store, one sub-store per child kind. -/
structure Store where
  serviceAccounts : List (ObjectKey × ServiceAccount)
  roles : List (ObjectKey × Role)
  roleBindings : List (ObjectKey × RoleBinding)
  services : List (ObjectKey × Service)
  deployments : List (ObjectKey × Deployment)
deriving DecidableEq, Repr

/-- One recorded merge-strategy invocation: the observed object handed to
the strategy, the stamped desired object, and the strategy's result. -/
structure MergeCall (α : Type) where
  observed : Option α
  desired : α
  result : α
deriving DecidableEq, Repr

/-- The observable state of one reconcile run: the store, the kinds whose
upsert was invoked (in order), the Service and Deployment merge
invocations, the owner-reference lists of every written object, and the
error that ended the run (if any). -/
structure RunState where
  store : Store
  attempts : List ChildKind
  serviceMerges : List (MergeCall Service)
  deploymentMerges : List (MergeCall Deployment)
  writes : List (ChildKind × List OwnerReference)
  error : Option OpError
deriving DecidableEq, Repr

/-- The gateways builder for one reconcile (external collaborator,
specified at its interface): the five desired payloads — `deployment` may
fail with a build error — and the external class-config-aware Deployment
merge function. -/
structure Builder where
  serviceAccount : ServiceAccount
  role : Role
  roleBinding : RoleBinding
  service : Service
  deployment : Except String Deployment
  mergeDeployments : Option Deployment → Deployment → Deployment

/-- The group a `parametersRef` must carry to be applicable
(`meshv2beta1.MeshGroup`). -/
def MeshGroup : String := "mesh.consul.hashicorp.com"

/-- A GatewayClass's reference to its configuration object. -/
structure ParametersRef where
  group : String
  kind : String
  name : String
deriving DecidableEq, Repr

/-- A `meshv2beta1.GatewayClass`: its name and optional parameters
reference. -/
structure GatewayClass where
  name : String
  parametersRef : Option ParametersRef
deriving DecidableEq, Repr

/-- A `meshv2beta1.GatewayClassConfig`; its content is opaque to the
controller, the default value is the zero value allocated by
`getGatewayClassConfigForGatewayClass`. -/
structure GatewayClassConfig where
  deploymentDefaults : List (String × String) := []
deriving DecidableEq, Repr

/-- The result of one platform `Get`: the object, "not found", or a
failure with another cause (`IsNotFound` distinguishes the last two). -/
inductive GetOutcome (α : Type) where
  | found (a : α)
  | notFound
  | err (code : Nat)
deriving DecidableEq, Repr

/-- The MeshGateway parent: its identity and the gateway class it names. -/
structure MeshGateway where
  id : ParentIdentity
  gatewayClassName : String
deriving DecidableEq, Repr

/-- `getGatewayClassForGateway` from the source: `Get` the named class;
`client.IgnoreNotFound` turns "not found" into a nil class with no error,
any other failure propagates. -/
def getGatewayClassForGateway (classGet : String → GetOutcome GatewayClass)
    (gw : MeshGateway) : Except OpError (Option GatewayClass) :=
  match classGet gw.gatewayClassName with
  | .found c => .ok (some c)
  | .notFound => .ok none
  | .err code => .error (.storeError code)

/-- `getGatewayClassConfigForGatewayClass` from the source: a nil class or
an inapplicable `parametersRef` (wrong group or kind) yields a nil config
and no error; a nil `parametersRef` yields the zero-value config; a `Get`
of the referenced config turns "not found" into a nil config via
`client.IgnoreNotFound` and propagates any other failure. -/
def getGatewayClassConfigForGatewayClass
    (configGet : String → GetOutcome GatewayClassConfig) :
    Option GatewayClass → Except OpError (Option GatewayClassConfig)
  | none => .ok none
  | some gatewayClass =>
    match gatewayClass.parametersRef with
    | none => .ok (some {})
    | some ref =>
      if ref.group != MeshGroup || ref.kind != "GatewayClassConfig" then
        .ok none
      else
        match configGet ref.name with
        | .found c => .ok (some c)
        | .notFound => .ok none
        | .err code => .error (.storeError code)

/-- `getGatewayClassConfigForGateway` from the source: resolve the class,
then its configuration, propagating the first error. -/
def getGatewayClassConfigForGateway
    (classGet : String → GetOutcome GatewayClass)
    (configGet : String → GetOutcome GatewayClassConfig)
    (gw : MeshGateway) : Except OpError (Option GatewayClassConfig) :=
  match getGatewayClassForGateway classGet gw with
  | .error e => .error e
  | .ok gatewayClass => getGatewayClassConfigForGatewayClass configGet gatewayClass

/-- The external collaborators of one reconcile: the platform lookups for
classes and configs, and the builder produced for a resolved config
(`gateways.NewMeshGatewayBuilder`). -/
structure ReconcileEnv where
  classGet : String → GetOutcome GatewayClass
  configGet : String → GetOutcome GatewayClassConfig
  builder : Option GatewayClassConfig → Builder

/-- The run state a reconcile starts from. -/
def initState (s : Store) : RunState :=
  { store := s, attempts := [], serviceMerges := [], deploymentMerges := [],
    writes := [], error := none }

/-- The `upsertOp` operation used for ServiceAccount, Role and RoleBinding:
write the stamped desired object (the replace strategy). -/
def replaceOp (α : Type) : Option α → α → α := fun _ w => w

/-- The body of `mergeServiceOp`: the object written for the Service kind
is `mergeService(existingService, builtService)` (never nil when the built
service is not nil). -/
def serviceMergeOp (existing : Option Service) (built : Service) : Service :=
  match mergeService existing (some built) with
  | some v => v
  | none => built

/-- The ServiceAccount step of `onCreateUpdate`, with its
"unable to create service account" error context. -/
def stepServiceAccount (gw : ParentIdentity) (b : Builder) (st : RunState) :
    RunState :=
  if st.error.isSome then st
  else
    match opIfNewOrOwned gw st.store.serviceAccounts b.serviceAccount
        (replaceOp ServiceAccount) with
    | .error e =>
      { st with attempts := st.attempts ++ [ChildKind.serviceAccount],
                error := some (.wrapped "unable to create service account" e) }
    | .ok out =>
      { st with store := { st.store with serviceAccounts := out.sub },
                attempts := st.attempts ++ [ChildKind.serviceAccount],
                writes := st.writes ++
                  [(ChildKind.serviceAccount,
                    (HasMeta.meta out.written).ownerReferences)] }

/-- The Role step of `onCreateUpdate`. -/
def stepRole (gw : ParentIdentity) (b : Builder) (st : RunState) : RunState :=
  if st.error.isSome then st
  else
    match opIfNewOrOwned gw st.store.roles b.role (replaceOp Role) with
    | .error e =>
      { st with attempts := st.attempts ++ [ChildKind.role],
                error := some (.wrapped "unable to create role" e) }
    | .ok out =>
      { st with store := { st.store with roles := out.sub },
                attempts := st.attempts ++ [ChildKind.role],
                writes := st.writes ++
                  [(ChildKind.role, (HasMeta.meta out.written).ownerReferences)] }

/-- The RoleBinding step of `onCreateUpdate`. -/
def stepRoleBinding (gw : ParentIdentity) (b : Builder) (st : RunState) :
    RunState :=
  if st.error.isSome then st
  else
    match opIfNewOrOwned gw st.store.roleBindings b.roleBinding
        (replaceOp RoleBinding) with
    | .error e =>
      { st with attempts := st.attempts ++ [ChildKind.roleBinding],
                error := some (.wrapped "unable to create role binding" e) }
    | .ok out =>
      { st with store := { st.store with roleBindings := out.sub },
                attempts := st.attempts ++ [ChildKind.roleBinding],
                writes := st.writes ++
                  [(ChildKind.roleBinding,
                    (HasMeta.meta out.written).ownerReferences)] }

/-- The Service step of `onCreateUpdate`: the operation writes
`mergeService(existing, built)` and the invocation is recorded. -/
def stepService (gw : ParentIdentity) (b : Builder) (st : RunState) : RunState :=
  if st.error.isSome then st
  else
    match opIfNewOrOwned gw st.store.services b.service serviceMergeOp with
    | .error e =>
      { st with attempts := st.attempts ++ [ChildKind.service],
                error := some (.wrapped "unable to create service" e) }
    | .ok out =>
      { st with store := { st.store with services := out.sub },
                attempts := st.attempts ++ [ChildKind.service],
                serviceMerges := st.serviceMerges ++
                  [{ observed := out.observed, desired := out.stamped,
                     result := out.written }],
                writes := st.writes ++
                  [(ChildKind.service,
                    (HasMeta.meta out.written).ownerReferences)] }

/-- The Deployment step of `onCreateUpdate`: building the desired
Deployment may fail, which aborts before any Deployment upsert; otherwise
the operation writes `builder.MergeDeployments(gcc, existing, built)` and
the invocation is recorded. -/
def stepDeployment (gw : ParentIdentity) (b : Builder) (st : RunState) :
    RunState :=
  if st.error.isSome then st
  else
    match b.deployment with
    | .error msg =>
      { st with error := some (.wrapped "unable to build deployment"
                  (.buildError msg)) }
    | .ok built =>
      match opIfNewOrOwned gw st.store.deployments built
          (fun ex w => b.mergeDeployments ex w) with
      | .error e =>
        { st with attempts := st.attempts ++ [ChildKind.deployment],
                  error := some (.wrapped "unable to create deployment" e) }
      | .ok out =>
        { st with store := { st.store with deployments := out.sub },
                  attempts := st.attempts ++ [ChildKind.deployment],
                  deploymentMerges := st.deploymentMerges ++
                    [{ observed := out.observed, desired := out.stamped,
                       result := out.written }],
                  writes := st.writes ++
                    [(ChildKind.deployment,
                      (HasMeta.meta out.written).ownerReferences)] }

/-- `onCreateUpdate` from the source: resolve the gateway class
configuration (any failure aborts before any upsert), build, then attempt
the five child upserts in dependency order, each failure short-circuiting
the rest. -/
def onCreateUpdate (env : ReconcileEnv) (gw : MeshGateway) (s : Store) :
    RunState :=
  match getGatewayClassConfigForGateway env.classGet env.configGet gw with
  | .error e => { initState s with error := some e }
  | .ok gcc =>
    let b := env.builder gcc
    stepDeployment gw.id b
      (stepService gw.id b
        (stepRoleBinding gw.id b
          (stepRole gw.id b
            (stepServiceAccount gw.id b (initState s)))))

/-- The sub-store of one child kind is unchanged between two stores. -/
def kindUntouched (s1 s2 : Store) : ChildKind → Prop
  | .serviceAccount => s2.serviceAccounts = s1.serviceAccounts
  | .role => s2.roles = s1.roles
  | .roleBinding => s2.roleBindings = s1.roleBindings
  | .service => s2.services = s1.services
  | .deployment => s2.deployments = s1.deployments

/-! Concrete fixtures used to instantiate the general theorems. -/

/-- A concrete MeshGateway parent. -/
def gw0 : MeshGateway :=
  { id := { ns := "default", name := "gw", uid := 7 },
    gatewayClassName := "mesh-class" }

/-- Fresh metadata for built payloads. -/
def meta0 (name : String) : ObjectMeta :=
  { ns := "default", name := name, annotations := [], ownerReferences := [] }

/-- The desired Service the concrete builder produces. -/
def builtService0 : Service :=
  { meta := meta0 "gw",
    ports := [{ name := "wan", port := 8080, protocol := "TCP",
                targetPort := 8080 }],
    selector := [("app", "gw")], serviceType := "LoadBalancer",
    clusterIP := "" }

/-- A concrete builder whose Deployment merge is the replace strategy. -/
def builder0 : Builder :=
  { serviceAccount := { meta := meta0 "gw", secrets := [] },
    role := { meta := meta0 "gw", rules := ["get"] },
    roleBinding := { meta := meta0 "gw", roleRef := "gw", subjects := ["sa"] },
    service := builtService0,
    deployment := .ok { meta := meta0 "gw", replicas := 1, podSpec := "consul" },
    mergeDeployments := fun _ w => w }

/-- A concrete environment: no gateway class exists, so the configuration
resolves best-effort to nil. -/
def env0 : ReconcileEnv :=
  { classGet := fun _ => .notFound, configGet := fun _ => .notFound,
    builder := fun _ => builder0 }

/-- The empty store. -/
def emptyStore : Store :=
  { serviceAccounts := [], roles := [], roleBindings := [], services := [],
    deployments := [] }

/-- A Service at the builder's target key that is owned by `gw0` but
carries a platform-injected annotation the desired Service lacks. -/
def driftedService : Service :=
  { builtService0 with
      meta := { builtService0.meta with
                  annotations := [("drift", "1")],
                  ownerReferences := [parentRef gw0.id] } }

/-- A store holding only the drifted Service. -/
def driftedStore : Store :=
  { emptyStore with services := [({ ns := "default", name := "gw" }, driftedService)] }

/-- A Service at the builder's target key owned by someone else. -/
def foreignService : Service :=
  { builtService0 with
      meta := { builtService0.meta with
                  ownerReferences := [{ uid := 99, name := "intruder" }] } }

/-- A store holding only the foreign Service. -/
def foreignStore : Store :=
  { emptyStore with services := [({ ns := "default", name := "gw" }, foreignService)] }

/-- A builder whose Deployment payload cannot be built. -/
def builderBad : Builder :=
  { builder0 with deployment := .error "invalid gateway class config" }

/-- An environment whose builder fails on the Deployment payload. -/
def envBad : ReconcileEnv :=
  { classGet := fun _ => .notFound, configGet := fun _ => .notFound,
    builder := fun _ => builderBad }

theorem portsMatch_eq_proj (a b : List ServicePort) (hlen : a.length = b.length) :
    portsMatch a b = true ↔ a.map portProj = b.map portProj := by
  induction a generalizing b with
  | nil => cases b with
    | nil => simp [portsMatch]
    | cons q qs => simp at hlen
  | cons p ps ih => cases b with
    | nil => simp at hlen
    | cons q qs =>
      simp only [List.length_cons, Nat.succ.injEq] at hlen
      simp only [portsMatch, List.zip_cons_cons, List.all_cons, List.map_cons,
        Bool.and_eq_true, beq_iff_eq, List.cons.injEq]
      rw [← portsMatch]
      rw [ih qs hlen]
      constructor
      · rintro ⟨⟨h1, h2⟩, h3⟩
        exact ⟨by simp [portProj, h1, h2], h3⟩
      · rintro ⟨h1, h3⟩
        simp only [portProj, Prod.mk.injEq] at h1
        exact ⟨⟨h1.1, h1.2⟩, h3⟩

theorem areServicesEqual_iff (a b : Service) :
    areServicesEqual (some a) (some b) = true ↔
      (annMapsEqual a.meta.annotations b.meta.annotations = true ∧
        a.ports.map portProj = b.ports.map portProj) := by
  simp only [areServicesEqual]
  by_cases hann : annMapsEqual a.meta.annotations b.meta.annotations = true
  · simp only [hann, Bool.not_true, Bool.false_eq_true, if_false, true_and]
    by_cases hlen : a.ports.length = b.ports.length
    · have : (b.ports.length != a.ports.length) = false := by
        simp [bne, hlen]
      simp only [this, Bool.false_eq_true, if_false]
      exact portsMatch_eq_proj a.ports b.ports hlen
    · have : (b.ports.length != a.ports.length) = true := by
        simp only [bne_iff_ne, ne_eq]
        exact fun h => hlen h.symm
      simp only [this, if_true]
      constructor
      · intro h; exact absurd h (by simp)
      · intro h2
        have := congrArg List.length h2
        simp only [List.length_map] at this
        exact absurd this hlen
  · simp only [Bool.not_eq_true] at hann
    simp [hann]

theorem storeGet_storePut_self (sub : List (ObjectKey × α)) (k : ObjectKey)
    (v : α) : storeGet (storePut sub k v) k = some v := by
  induction sub with
  | nil => simp [storePut, storeGet]
  | cons p rest ih =>
    obtain ⟨k2, v2⟩ := p
    by_cases h : k2 = k
    · simp [storePut, storeGet, h]
    · simp [storePut, storeGet, h, ih]

theorem storePut_self_of_get (sub : List (ObjectKey × α)) (k : ObjectKey)
    (v : α) (h : storeGet sub k = some v) : storePut sub k v = sub := by
  induction sub with
  | nil => simp [storeGet] at h
  | cons p rest ih =>
    obtain ⟨k2, v2⟩ := p
    by_cases hk : k2 = k
    · simp [storeGet, hk] at h
      simp [storePut, hk, h]
    · simp [storeGet, hk] at h
      simp [storePut, hk, ih h]

theorem hasOwnerRef_iff (gw : ParentIdentity) (refs : List OwnerReference) :
    hasOwnerRef gw refs = true ↔
      ∃ ref ∈ refs, ref.uid = gw.uid ∧ ref.name = gw.name := by
  simp [hasOwnerRef, List.any_eq_true, Bool.and_eq_true, beq_iff_eq]

theorem hasOwnerRef_of_mem (gw : ParentIdentity) (refs : List OwnerReference)
    (h : parentRef gw ∈ refs) : hasOwnerRef gw refs = true := by
  rw [hasOwnerRef_iff]
  exact ⟨parentRef gw, h, rfl, rfl⟩

theorem objKey_setControllerReference [HasMeta α] (gw : ParentIdentity)
    (o : α) : objKey (setControllerReference gw o) = objKey o := by
  unfold setControllerReference
  by_cases h : parentRef gw ∈ (HasMeta.meta o).ownerReferences
  · simp [h]
  · simp [h, objKey, HasMeta.meta_withRefs]

theorem parentRef_mem_setControllerReference [HasMeta α] (gw : ParentIdentity)
    (o : α) :
    parentRef gw ∈ (HasMeta.meta (setControllerReference gw o)).ownerReferences := by
  unfold setControllerReference
  by_cases h : parentRef gw ∈ (HasMeta.meta o).ownerReferences
  · simp [h]
  · simp [h, HasMeta.meta_withRefs]

theorem portsMatch_refl (a : List ServicePort) : portsMatch a a = true := by
  induction a with
  | nil => rfl
  | cons p ps ih => simpa [portsMatch] using ih

theorem service_overwrite_self (t : Service) : overwriteAnnPorts t t = t := rfl

theorem serviceMergeOp_none (t : Service) : serviceMergeOp none t = t := by
  simp [serviceMergeOp, mergeService, areServicesEqual]

theorem mergeService_none_right (ex : Option Service) :
    mergeService ex none = none := by
  cases ex with
  | none => simp [mergeService, areServicesEqual]
  | some f => simp [mergeService, areServicesEqual]

theorem serviceMergeOp_of_equal (f t : Service)
    (h : areServicesEqual (some f) (some t) = true) :
    serviceMergeOp (some f) t = t := by
  simp [serviceMergeOp, mergeService, h]

theorem serviceMergeOp_of_ne (f t : Service)
    (h : areServicesEqual (some f) (some t) = false) :
    serviceMergeOp (some f) t = overwriteAnnPorts f t := by
  simp [serviceMergeOp, mergeService, h]

theorem mergeService_some_eq (ex : Option Service) (t : Service) :
    mergeService ex (some t) = some (serviceMergeOp ex t) := by
  cases ex with
  | none => simp [mergeService, areServicesEqual, serviceMergeOp]
  | some f =>
    cases h : areServicesEqual (some f) (some t) with
    | true => rw [serviceMergeOp_of_equal f t h]; simp [mergeService, h]
    | false => rw [serviceMergeOp_of_ne f t h]; simp [mergeService, h]

theorem areServicesEqual_of_overwrite (f t : Service) :
    areServicesEqual (some f) (some (overwriteAnnPorts f t)) =
      annMapsEqual f.meta.annotations f.meta.annotations := by
  cases hA : annMapsEqual f.meta.annotations f.meta.annotations <;>
    simp [areServicesEqual, overwriteAnnPorts, portsMatch_refl, hA]

theorem serviceMergeOp_self (t : Service) : serviceMergeOp (some t) t = t := by
  cases h : areServicesEqual (some t) (some t) with
  | true => exact serviceMergeOp_of_equal t t h
  | false => rw [serviceMergeOp_of_ne t t h]; exact service_overwrite_self t

theorem overwrite_overwrite (f t : Service) :
    overwriteAnnPorts (overwriteAnnPorts f t) t = overwriteAnnPorts f t := rfl

theorem serviceMergeOp_fix (ex : Option Service) (t : Service) :
    serviceMergeOp (some (serviceMergeOp ex t)) t = serviceMergeOp ex t := by
  cases ex with
  | none => rw [serviceMergeOp_none]; exact serviceMergeOp_self t
  | some f =>
    cases h : areServicesEqual (some f) (some t) with
    | true => rw [serviceMergeOp_of_equal f t h]; exact serviceMergeOp_self t
    | false =>
      rw [serviceMergeOp_of_ne f t h]
      cases h2 : areServicesEqual (some (overwriteAnnPorts f t)) (some t) with
      | true =>
        exfalso
        rw [areServicesEqual_iff] at h2
        have : areServicesEqual (some f) (some t) = true := by
          rw [areServicesEqual_iff]
          simpa [overwriteAnnPorts] using h2
        rw [h] at this
        exact Bool.noConfusion this
      | false =>
        rw [serviceMergeOp_of_ne _ t h2]
        exact overwrite_overwrite f t

theorem serviceMergeOp_self_idem (ex : Option Service) (t : Service) :
    serviceMergeOp ex (serviceMergeOp ex t) = serviceMergeOp ex t := by
  cases ex with
  | none => rw [serviceMergeOp_none, serviceMergeOp_none]
  | some f =>
    cases h : areServicesEqual (some f) (some t) with
    | true => rw [serviceMergeOp_of_equal f t h, serviceMergeOp_of_equal f t h]
    | false =>
      rw [serviceMergeOp_of_ne f t h]
      cases h2 : areServicesEqual (some f) (some (overwriteAnnPorts f t)) with
      | true => rw [serviceMergeOp_of_equal _ _ h2]
      | false =>
        rw [serviceMergeOp_of_ne _ _ h2]
        rfl

theorem serviceMergeOp_objKey (ex : Option Service) (t : Service) :
    objKey (serviceMergeOp ex t) = objKey t := by
  cases ex with
  | none => rw [serviceMergeOp_none]
  | some f =>
    cases h : areServicesEqual (some f) (some t) with
    | true => rw [serviceMergeOp_of_equal f t h]
    | false => rw [serviceMergeOp_of_ne f t h]; rfl

theorem serviceMergeOp_refs (ex : Option Service) (t : Service) :
    (serviceMergeOp ex t).meta.ownerReferences = t.meta.ownerReferences := by
  cases ex with
  | none => rw [serviceMergeOp_none]
  | some f =>
    cases h : areServicesEqual (some f) (some t) with
    | true => rw [serviceMergeOp_of_equal f t h]
    | false => rw [serviceMergeOp_of_ne f t h]; rfl

theorem opIfNewOrOwned_absent [HasMeta α] (gw : ParentIdentity)
    (sub : List (ObjectKey × α)) (ws : α) (op : Option α → α → α)
    (h : storeGet sub (objKey (setControllerReference gw ws)) = none) :
    opIfNewOrOwned gw sub ws op =
      .ok { sub := storePut sub (objKey (op none (setControllerReference gw ws)))
              (op none (setControllerReference gw ws)),
            observed := none, stamped := setControllerReference gw ws,
            written := op none (setControllerReference gw ws) } := by
  simp [opIfNewOrOwned, h]

theorem opIfNewOrOwned_owned [HasMeta α] (gw : ParentIdentity)
    (sub : List (ObjectKey × α)) (ws : α) (op : Option α → α → α)
    (existing : α)
    (h : storeGet sub (objKey (setControllerReference gw ws)) = some existing)
    (hown : hasOwnerRef gw (HasMeta.meta existing).ownerReferences = true) :
    opIfNewOrOwned gw sub ws op =
      .ok { sub := storePut sub
              (objKey (op (some existing) (setControllerReference gw ws)))
              (op (some existing) (setControllerReference gw ws)),
            observed := some existing,
            stamped := setControllerReference gw ws,
            written := op (some existing) (setControllerReference gw ws) } := by
  simp [opIfNewOrOwned, h, hown]

theorem opIfNewOrOwned_notOwned [HasMeta α] (gw : ParentIdentity)
    (sub : List (ObjectKey × α)) (ws : α) (op : Option α → α → α)
    (existing : α)
    (h : storeGet sub (objKey (setControllerReference gw ws)) = some existing)
    (hown : hasOwnerRef gw (HasMeta.meta existing).ownerReferences = false) :
    opIfNewOrOwned gw sub ws op = .error .notOwned := by
  simp [opIfNewOrOwned, h, hown]

theorem opIfNewOrOwned_ok_inv [HasMeta α] {gw : ParentIdentity}
    {sub : List (ObjectKey × α)} {ws : α} {op : Option α → α → α}
    {out : UpsertOutcome α}
    (h : opIfNewOrOwned gw sub ws op = .ok out) :
    out.stamped = setControllerReference gw ws ∧
    out.written = op out.observed out.stamped ∧
    out.sub = storePut sub (objKey out.written) out.written := by
  cases hget : storeGet sub (objKey (setControllerReference gw ws)) with
  | none =>
    rw [opIfNewOrOwned_absent gw sub ws op hget] at h
    injection h with h
    subst h
    exact ⟨rfl, rfl, rfl⟩
  | some existing =>
    cases hown : hasOwnerRef gw (HasMeta.meta existing).ownerReferences with
    | true =>
      rw [opIfNewOrOwned_owned gw sub ws op existing hget hown] at h
      injection h with h
      subst h
      exact ⟨rfl, rfl, rfl⟩
    | false =>
      rw [opIfNewOrOwned_notOwned gw sub ws op existing hget hown] at h
      exact Except.noConfusion h

theorem opIfNewOrOwned_rerun [HasMeta α] {gw : ParentIdentity}
    {sub : List (ObjectKey × α)} {ws : α} {op : Option α → α → α}
    {out : UpsertOutcome α}
    (h : opIfNewOrOwned gw sub ws op = .ok out)
    (hkey : objKey out.written = objKey out.stamped)
    (hrefs : hasOwnerRef gw (HasMeta.meta out.written).ownerReferences = true)
    (hfix : op (some out.written) out.stamped = out.written) :
    opIfNewOrOwned gw out.sub ws op =
      .ok { sub := out.sub, observed := some out.written,
            stamped := out.stamped, written := out.written } := by
  obtain ⟨hs, hw, hsub⟩ := opIfNewOrOwned_ok_inv h
  have hget2 : storeGet out.sub (objKey (setControllerReference gw ws)) =
      some out.written := by
    rw [hsub, ← hs, ← hkey]
    exact storeGet_storePut_self sub (objKey out.written) out.written
  rw [opIfNewOrOwned_owned gw out.sub ws op out.written hget2 hrefs]
  rw [← hs, hfix]
  rw [show storePut out.sub (objKey out.written) out.written = out.sub from ?_]
  rw [hsub]
  exact storePut_self_of_get (storePut sub (objKey out.written) out.written)
    (objKey out.written) out.written
    (storeGet_storePut_self sub (objKey out.written) out.written)

theorem stepServiceAccount_facts (gw : ParentIdentity) (b : Builder)
    (st : RunState) :
    (∀ e, st.error = some e → stepServiceAccount gw b st = st) ∧
    (stepServiceAccount gw b st).store.roles = st.store.roles ∧
    (stepServiceAccount gw b st).store.roleBindings = st.store.roleBindings ∧
    (stepServiceAccount gw b st).store.services = st.store.services ∧
    (stepServiceAccount gw b st).store.deployments = st.store.deployments ∧
    (stepServiceAccount gw b st).serviceMerges = st.serviceMerges ∧
    (stepServiceAccount gw b st).deploymentMerges = st.deploymentMerges ∧
    (st.error = none → (stepServiceAccount gw b st).attempts =
      st.attempts ++ [ChildKind.serviceAccount]) ∧
    ((stepServiceAccount gw b st).attempts = st.attempts ∨
      (stepServiceAccount gw b st).attempts =
        st.attempts ++ [ChildKind.serviceAccount]) ∧
    (st.error = none → (stepServiceAccount gw b st).error ≠ none →
      (stepServiceAccount gw b st).store = st.store) := by
  cases herr : st.error with
  | some e => simp [stepServiceAccount, herr]
  | none =>
    cases hop : opIfNewOrOwned gw st.store.serviceAccounts b.serviceAccount
        (replaceOp ServiceAccount) with
    | error e2 => simp [stepServiceAccount, herr, hop]
    | ok out => simp [stepServiceAccount, herr, hop]

theorem stepRole_facts (gw : ParentIdentity) (b : Builder) (st : RunState) :
    (∀ e, st.error = some e → stepRole gw b st = st) ∧
    (stepRole gw b st).store.serviceAccounts = st.store.serviceAccounts ∧
    (stepRole gw b st).store.roleBindings = st.store.roleBindings ∧
    (stepRole gw b st).store.services = st.store.services ∧
    (stepRole gw b st).store.deployments = st.store.deployments ∧
    (stepRole gw b st).serviceMerges = st.serviceMerges ∧
    (stepRole gw b st).deploymentMerges = st.deploymentMerges ∧
    (st.error = none → (stepRole gw b st).attempts =
      st.attempts ++ [ChildKind.role]) ∧
    ((stepRole gw b st).attempts = st.attempts ∨
      (stepRole gw b st).attempts = st.attempts ++ [ChildKind.role]) ∧
    (st.error = none → (stepRole gw b st).error ≠ none →
      (stepRole gw b st).store = st.store) := by
  cases herr : st.error with
  | some e => simp [stepRole, herr]
  | none =>
    cases hop : opIfNewOrOwned gw st.store.roles b.role (replaceOp Role) with
    | error e2 => simp [stepRole, herr, hop]
    | ok out => simp [stepRole, herr, hop]

theorem stepRoleBinding_facts (gw : ParentIdentity) (b : Builder)
    (st : RunState) :
    (∀ e, st.error = some e → stepRoleBinding gw b st = st) ∧
    (stepRoleBinding gw b st).store.serviceAccounts = st.store.serviceAccounts ∧
    (stepRoleBinding gw b st).store.roles = st.store.roles ∧
    (stepRoleBinding gw b st).store.services = st.store.services ∧
    (stepRoleBinding gw b st).store.deployments = st.store.deployments ∧
    (stepRoleBinding gw b st).serviceMerges = st.serviceMerges ∧
    (stepRoleBinding gw b st).deploymentMerges = st.deploymentMerges ∧
    (st.error = none → (stepRoleBinding gw b st).attempts =
      st.attempts ++ [ChildKind.roleBinding]) ∧
    ((stepRoleBinding gw b st).attempts = st.attempts ∨
      (stepRoleBinding gw b st).attempts =
        st.attempts ++ [ChildKind.roleBinding]) ∧
    (st.error = none → (stepRoleBinding gw b st).error ≠ none →
      (stepRoleBinding gw b st).store = st.store) := by
  cases herr : st.error with
  | some e => simp [stepRoleBinding, herr]
  | none =>
    cases hop : opIfNewOrOwned gw st.store.roleBindings b.roleBinding
        (replaceOp RoleBinding) with
    | error e2 => simp [stepRoleBinding, herr, hop]
    | ok out => simp [stepRoleBinding, herr, hop]

theorem stepService_facts (gw : ParentIdentity) (b : Builder) (st : RunState) :
    (∀ e, st.error = some e → stepService gw b st = st) ∧
    (stepService gw b st).store.serviceAccounts = st.store.serviceAccounts ∧
    (stepService gw b st).store.roles = st.store.roles ∧
    (stepService gw b st).store.roleBindings = st.store.roleBindings ∧
    (stepService gw b st).store.deployments = st.store.deployments ∧
    (stepService gw b st).deploymentMerges = st.deploymentMerges ∧
    (st.error = none → (stepService gw b st).attempts =
      st.attempts ++ [ChildKind.service]) ∧
    ((stepService gw b st).attempts = st.attempts ∨
      (stepService gw b st).attempts = st.attempts ++ [ChildKind.service]) ∧
    (st.error = none → (stepService gw b st).error ≠ none →
      (stepService gw b st).store = st.store ∧
        (stepService gw b st).serviceMerges = st.serviceMerges) := by
  cases herr : st.error with
  | some e => simp [stepService, herr]
  | none =>
    cases hop : opIfNewOrOwned gw st.store.services b.service serviceMergeOp with
    | error e2 => simp [stepService, herr, hop]
    | ok out => simp [stepService, herr, hop]

theorem stepDeployment_facts (gw : ParentIdentity) (b : Builder)
    (st : RunState) :
    (∀ e, st.error = some e → stepDeployment gw b st = st) ∧
    (stepDeployment gw b st).store.serviceAccounts = st.store.serviceAccounts ∧
    (stepDeployment gw b st).store.roles = st.store.roles ∧
    (stepDeployment gw b st).store.roleBindings = st.store.roleBindings ∧
    (stepDeployment gw b st).store.services = st.store.services ∧
    (stepDeployment gw b st).serviceMerges = st.serviceMerges ∧
    ((stepDeployment gw b st).attempts = st.attempts ∨
      (stepDeployment gw b st).attempts = st.attempts ++ [ChildKind.deployment]) ∧
    (st.error = none → (stepDeployment gw b st).error ≠ none →
      (stepDeployment gw b st).store = st.store ∧
        (stepDeployment gw b st).deploymentMerges = st.deploymentMerges) ∧
    (st.error = none → (stepDeployment gw b st).error = none →
      (stepDeployment gw b st).attempts = st.attempts ++ [ChildKind.deployment]) := by
  cases herr : st.error with
  | some e => simp [stepDeployment, herr]
  | none =>
    cases hb : b.deployment with
    | error msg => simp [stepDeployment, herr, hb]
    | ok built =>
      cases hop : opIfNewOrOwned gw st.store.deployments built
          (fun ex w => b.mergeDeployments ex w) with
      | error e2 => simp [stepDeployment, herr, hb, hop]
      | ok out => simp [stepDeployment, herr, hb, hop]

theorem stepRole_replay (gw : ParentIdentity) (b : Builder) (st tt : RunState)
    (hst : st.error = none) (htt : tt.error = none)
    (hsub : tt.store.roles = (stepRole gw b st).store.roles) :
    (stepRole gw b tt).store = tt.store ∧
    ((stepRole gw b tt).error = none ↔ (stepRole gw b st).error = none) := by
  cases hop : opIfNewOrOwned gw st.store.roles b.role (replaceOp Role) with
  | error e =>
    have hstep : stepRole gw b st =
        { st with attempts := st.attempts ++ [ChildKind.role],
                  error := some (.wrapped "unable to create role" e) } := by
      simp [stepRole, hst, hop]
    have hsub2 : tt.store.roles = st.store.roles := by rw [hsub, hstep]
    have hstep2 : stepRole gw b tt =
        { tt with attempts := tt.attempts ++ [ChildKind.role],
                  error := some (.wrapped "unable to create role" e) } := by
      simp [stepRole, htt, hsub2, hop]
    rw [hstep2, hstep]
    simp
  | ok out =>
    obtain ⟨hs, hw, hsubput⟩ := opIfNewOrOwned_ok_inv hop
    have hwst : out.written = out.stamped := hw
    have hrerun := opIfNewOrOwned_rerun hop (by rw [hwst])
      (by rw [hwst, hs]
          exact hasOwnerRef_of_mem _ _
            (parentRef_mem_setControllerReference gw b.role))
      (hwst.symm)
    have hstep : stepRole gw b st =
        { st with store := { st.store with roles := out.sub },
                  attempts := st.attempts ++ [ChildKind.role],
                  writes := st.writes ++
                    [(ChildKind.role,
                      (HasMeta.meta out.written).ownerReferences)] } := by
      simp [stepRole, hst, hop]
    have hsub2 : tt.store.roles = out.sub := by rw [hsub, hstep]
    have hstep2 : stepRole gw b tt =
        { tt with store := { tt.store with roles := out.sub },
                  attempts := tt.attempts ++ [ChildKind.role],
                  writes := tt.writes ++
                    [(ChildKind.role,
                      (HasMeta.meta out.written).ownerReferences)] } := by
      simp [stepRole, htt, hsub2, hrerun]
    rw [hstep2, hstep]
    refine ⟨?_, by simp [hst, htt]⟩
    show { tt.store with roles := out.sub } = tt.store
    rw [← hsub2]

theorem stepServiceAccount_replay (gw : ParentIdentity) (b : Builder)
    (st tt : RunState) (hst : st.error = none) (htt : tt.error = none)
    (hsub : tt.store.serviceAccounts =
      (stepServiceAccount gw b st).store.serviceAccounts) :
    (stepServiceAccount gw b tt).store = tt.store ∧
    ((stepServiceAccount gw b tt).error = none ↔
      (stepServiceAccount gw b st).error = none) := by
  cases hop : opIfNewOrOwned gw st.store.serviceAccounts b.serviceAccount
      (replaceOp ServiceAccount) with
  | error e =>
    have hstep : stepServiceAccount gw b st =
        { st with attempts := st.attempts ++ [ChildKind.serviceAccount],
                  error := some (.wrapped "unable to create service account" e) } := by
      simp [stepServiceAccount, hst, hop]
    have hsub2 : tt.store.serviceAccounts = st.store.serviceAccounts := by
      rw [hsub, hstep]
    have hstep2 : stepServiceAccount gw b tt =
        { tt with attempts := tt.attempts ++ [ChildKind.serviceAccount],
                  error := some (.wrapped "unable to create service account" e) } := by
      simp [stepServiceAccount, htt, hsub2, hop]
    rw [hstep2, hstep]
    simp [hst, htt]
  | ok out =>
    obtain ⟨hs, hw, hsubput⟩ := opIfNewOrOwned_ok_inv hop
    have hwst : out.written = out.stamped := hw
    have hrerun := opIfNewOrOwned_rerun hop (by rw [hwst])
      (by rw [hwst, hs]
          exact hasOwnerRef_of_mem _ _
            (parentRef_mem_setControllerReference gw b.serviceAccount))
      (hwst.symm)
    have hstep : stepServiceAccount gw b st =
        { st with store := { st.store with serviceAccounts := out.sub },
                  attempts := st.attempts ++ [ChildKind.serviceAccount],
                  writes := st.writes ++
                    [(ChildKind.serviceAccount,
                      (HasMeta.meta out.written).ownerReferences)] } := by
      simp [stepServiceAccount, hst, hop]
    have hsub2 : tt.store.serviceAccounts = out.sub := by rw [hsub, hstep]
    have hstep2 : stepServiceAccount gw b tt =
        { tt with store := { tt.store with serviceAccounts := out.sub },
                  attempts := tt.attempts ++ [ChildKind.serviceAccount],
                  writes := tt.writes ++
                    [(ChildKind.serviceAccount,
                      (HasMeta.meta out.written).ownerReferences)] } := by
      simp [stepServiceAccount, htt, hsub2, hrerun]
    rw [hstep2, hstep]
    refine ⟨?_, by simp [hst, htt]⟩
    show { tt.store with serviceAccounts := out.sub } = tt.store
    rw [← hsub2]

theorem stepRoleBinding_replay (gw : ParentIdentity) (b : Builder)
    (st tt : RunState) (hst : st.error = none) (htt : tt.error = none)
    (hsub : tt.store.roleBindings =
      (stepRoleBinding gw b st).store.roleBindings) :
    (stepRoleBinding gw b tt).store = tt.store ∧
    ((stepRoleBinding gw b tt).error = none ↔
      (stepRoleBinding gw b st).error = none) := by
  cases hop : opIfNewOrOwned gw st.store.roleBindings b.roleBinding
      (replaceOp RoleBinding) with
  | error e =>
    have hstep : stepRoleBinding gw b st =
        { st with attempts := st.attempts ++ [ChildKind.roleBinding],
                  error := some (.wrapped "unable to create role binding" e) } := by
      simp [stepRoleBinding, hst, hop]
    have hsub2 : tt.store.roleBindings = st.store.roleBindings := by
      rw [hsub, hstep]
    have hstep2 : stepRoleBinding gw b tt =
        { tt with attempts := tt.attempts ++ [ChildKind.roleBinding],
                  error := some (.wrapped "unable to create role binding" e) } := by
      simp [stepRoleBinding, htt, hsub2, hop]
    rw [hstep2, hstep]
    simp [hst, htt]
  | ok out =>
    obtain ⟨hs, hw, hsubput⟩ := opIfNewOrOwned_ok_inv hop
    have hwst : out.written = out.stamped := hw
    have hrerun := opIfNewOrOwned_rerun hop (by rw [hwst])
      (by rw [hwst, hs]
          exact hasOwnerRef_of_mem _ _
            (parentRef_mem_setControllerReference gw b.roleBinding))
      (hwst.symm)
    have hstep : stepRoleBinding gw b st =
        { st with store := { st.store with roleBindings := out.sub },
                  attempts := st.attempts ++ [ChildKind.roleBinding],
                  writes := st.writes ++
                    [(ChildKind.roleBinding,
                      (HasMeta.meta out.written).ownerReferences)] } := by
      simp [stepRoleBinding, hst, hop]
    have hsub2 : tt.store.roleBindings = out.sub := by rw [hsub, hstep]
    have hstep2 : stepRoleBinding gw b tt =
        { tt with store := { tt.store with roleBindings := out.sub },
                  attempts := tt.attempts ++ [ChildKind.roleBinding],
                  writes := tt.writes ++
                    [(ChildKind.roleBinding,
                      (HasMeta.meta out.written).ownerReferences)] } := by
      simp [stepRoleBinding, htt, hsub2, hrerun]
    rw [hstep2, hstep]
    refine ⟨?_, by simp [hst, htt]⟩
    show { tt.store with roleBindings := out.sub } = tt.store
    rw [← hsub2]

theorem stepService_replay (gw : ParentIdentity) (b : Builder)
    (st tt : RunState) (hst : st.error = none) (htt : tt.error = none)
    (hsub : tt.store.services = (stepService gw b st).store.services) :
    (stepService gw b tt).store = tt.store ∧
    ((stepService gw b tt).error = none ↔ (stepService gw b st).error = none) ∧
    (∀ c ∈ (stepService gw b tt).serviceMerges,
      c ∈ tt.serviceMerges ∨ c.observed = some c.result) := by
  cases hop : opIfNewOrOwned gw st.store.services b.service serviceMergeOp with
  | error e =>
    have hstep : stepService gw b st =
        { st with attempts := st.attempts ++ [ChildKind.service],
                  error := some (.wrapped "unable to create service" e) } := by
      simp [stepService, hst, hop]
    have hsub2 : tt.store.services = st.store.services := by rw [hsub, hstep]
    have hstep2 : stepService gw b tt =
        { tt with attempts := tt.attempts ++ [ChildKind.service],
                  error := some (.wrapped "unable to create service" e) } := by
      simp [stepService, htt, hsub2, hop]
    rw [hstep2, hstep]
    refine ⟨rfl, by simp [hst, htt], fun c hc => Or.inl hc⟩
  | ok out =>
    obtain ⟨hs, hw, hsubput⟩ := opIfNewOrOwned_ok_inv hop
    have hkey : objKey out.written = objKey out.stamped := by
      rw [hw]
      exact serviceMergeOp_objKey out.observed out.stamped
    have hrefs : hasOwnerRef gw (HasMeta.meta out.written).ownerReferences = true := by
      rw [hw]
      show hasOwnerRef gw
        (serviceMergeOp out.observed out.stamped).meta.ownerReferences = true
      rw [serviceMergeOp_refs, hs]
      exact hasOwnerRef_of_mem _ _
        (parentRef_mem_setControllerReference gw b.service)
    have hfix : serviceMergeOp (some out.written) out.stamped = out.written := by
      rw [hw]
      exact serviceMergeOp_fix out.observed out.stamped
    have hrerun := opIfNewOrOwned_rerun hop hkey hrefs hfix
    have hstep : stepService gw b st =
        { st with store := { st.store with services := out.sub },
                  attempts := st.attempts ++ [ChildKind.service],
                  serviceMerges := st.serviceMerges ++
                    [{ observed := out.observed, desired := out.stamped,
                       result := out.written }],
                  writes := st.writes ++
                    [(ChildKind.service,
                      (HasMeta.meta out.written).ownerReferences)] } := by
      simp [stepService, hst, hop]
    have hsub2 : tt.store.services = out.sub := by rw [hsub, hstep]
    have hstep2 : stepService gw b tt =
        { tt with store := { tt.store with services := out.sub },
                  attempts := tt.attempts ++ [ChildKind.service],
                  serviceMerges := tt.serviceMerges ++
                    [{ observed := some out.written, desired := out.stamped,
                       result := out.written }],
                  writes := tt.writes ++
                    [(ChildKind.service,
                      (HasMeta.meta out.written).ownerReferences)] } := by
      simp [stepService, htt, hsub2, hrerun]
    rw [hstep2, hstep]
    refine ⟨?_, by simp [hst, htt], ?_⟩
    · show { tt.store with services := out.sub } = tt.store
      rw [← hsub2]
    · intro c hc
      simp only [List.mem_append, List.mem_singleton] at hc
      cases hc with
      | inl h => exact Or.inl h
      | inr h => exact Or.inr (by rw [h])

theorem stepDeployment_replay (gw : ParentIdentity) (b : Builder)
    (st tt : RunState)
    (hmdFix : ∀ o d, b.mergeDeployments (some (b.mergeDeployments o d)) d =
      b.mergeDeployments o d)
    (hmdMeta : ∀ o d, (b.mergeDeployments o d).meta.ns = d.meta.ns ∧
      (b.mergeDeployments o d).meta.name = d.meta.name ∧
      (b.mergeDeployments o d).meta.ownerReferences = d.meta.ownerReferences)
    (hst : st.error = none) (htt : tt.error = none)
    (hsub : tt.store.deployments = (stepDeployment gw b st).store.deployments) :
    (stepDeployment gw b tt).store = tt.store ∧
    ((stepDeployment gw b tt).error = none ↔
      (stepDeployment gw b st).error = none) ∧
    (∀ c ∈ (stepDeployment gw b tt).deploymentMerges,
      c ∈ tt.deploymentMerges ∨ c.observed = some c.result) := by
  cases hb : b.deployment with
  | error msg =>
    have hstep : stepDeployment gw b st =
        { st with error := some (.wrapped "unable to build deployment"
            (.buildError msg)) } := by
      simp [stepDeployment, hst, hb]
    have hstep2 : stepDeployment gw b tt =
        { tt with error := some (.wrapped "unable to build deployment"
            (.buildError msg)) } := by
      simp [stepDeployment, htt, hb]
    rw [hstep2, hstep]
    refine ⟨rfl, by simp [hst, htt], fun c hc => Or.inl hc⟩
  | ok built =>
    cases hop : opIfNewOrOwned gw st.store.deployments built
        (fun ex w => b.mergeDeployments ex w) with
    | error e =>
      have hstep : stepDeployment gw b st =
          { st with attempts := st.attempts ++ [ChildKind.deployment],
                    error := some (.wrapped "unable to create deployment" e) } := by
        simp [stepDeployment, hst, hb, hop]
      have hsub2 : tt.store.deployments = st.store.deployments := by
        rw [hsub, hstep]
      have hstep2 : stepDeployment gw b tt =
          { tt with attempts := tt.attempts ++ [ChildKind.deployment],
                    error := some (.wrapped "unable to create deployment" e) } := by
        simp [stepDeployment, htt, hb, hsub2, hop]
      rw [hstep2, hstep]
      refine ⟨rfl, by simp [hst, htt], fun c hc => Or.inl hc⟩
    | ok out =>
      obtain ⟨hs, hw, hsubput⟩ := opIfNewOrOwned_ok_inv hop
      have hw2 : out.written = b.mergeDeployments out.observed out.stamped := hw
      have hkey : objKey out.written = objKey out.stamped := by
        rw [hw2]
        show ObjectKey.mk (b.mergeDeployments out.observed out.stamped).meta.ns
            (b.mergeDeployments out.observed out.stamped).meta.name =
          ObjectKey.mk out.stamped.meta.ns out.stamped.meta.name
        rw [(hmdMeta out.observed out.stamped).1,
          (hmdMeta out.observed out.stamped).2.1]
      have hrefs : hasOwnerRef gw (HasMeta.meta out.written).ownerReferences = true := by
        rw [hw2]
        show hasOwnerRef gw
          (b.mergeDeployments out.observed out.stamped).meta.ownerReferences = true
        rw [(hmdMeta out.observed out.stamped).2.2, hs]
        exact hasOwnerRef_of_mem _ _
          (parentRef_mem_setControllerReference gw built)
      have hfix : (fun ex w => b.mergeDeployments ex w) (some out.written)
          out.stamped = out.written := by
        show b.mergeDeployments (some out.written) out.stamped = out.written
        rw [hw2]
        exact hmdFix out.observed out.stamped
      have hrerun := opIfNewOrOwned_rerun hop hkey hrefs hfix
      have hstep : stepDeployment gw b st =
          { st with store := { st.store with deployments := out.sub },
                    attempts := st.attempts ++ [ChildKind.deployment],
                    deploymentMerges := st.deploymentMerges ++
                      [{ observed := out.observed, desired := out.stamped,
                         result := out.written }],
                    writes := st.writes ++
                      [(ChildKind.deployment,
                        (HasMeta.meta out.written).ownerReferences)] } := by
        simp [stepDeployment, hst, hb, hop]
      have hsub2 : tt.store.deployments = out.sub := by rw [hsub, hstep]
      have hstep2 : stepDeployment gw b tt =
          { tt with store := { tt.store with deployments := out.sub },
                    attempts := tt.attempts ++ [ChildKind.deployment],
                    deploymentMerges := tt.deploymentMerges ++
                      [{ observed := some out.written, desired := out.stamped,
                         result := out.written }],
                    writes := tt.writes ++
                      [(ChildKind.deployment,
                        (HasMeta.meta out.written).ownerReferences)] } := by
        simp [stepDeployment, htt, hb, hsub2, hrerun]
      rw [hstep2, hstep]
      refine ⟨?_, by simp [hst, htt], ?_⟩
      · show { tt.store with deployments := out.sub } = tt.store
        rw [← hsub2]
      · intro c hc
        simp only [List.mem_append, List.mem_singleton] at hc
        cases hc with
        | inl h => exact Or.inl h
        | inr h => exact Or.inr (by rw [h])

theorem stepServiceAccount_error_shape (gw : ParentIdentity) (b : Builder)
    (st : RunState) (h : st.error = none) :
    (stepServiceAccount gw b st).error = none ∨
    ∃ ew, (stepServiceAccount gw b st).error =
      some (OpError.wrapped "unable to create service account" ew) := by
  cases hop : opIfNewOrOwned gw st.store.serviceAccounts b.serviceAccount
      (replaceOp ServiceAccount) with
  | error ew => exact Or.inr ⟨ew, by simp [stepServiceAccount, h, hop]⟩
  | ok out => exact Or.inl (by simp [stepServiceAccount, h, hop])

theorem stepRole_error_shape (gw : ParentIdentity) (b : Builder)
    (st : RunState) (h : st.error = none) :
    (stepRole gw b st).error = none ∨
    ∃ ew, (stepRole gw b st).error =
      some (OpError.wrapped "unable to create role" ew) := by
  cases hop : opIfNewOrOwned gw st.store.roles b.role (replaceOp Role) with
  | error ew => exact Or.inr ⟨ew, by simp [stepRole, h, hop]⟩
  | ok out => exact Or.inl (by simp [stepRole, h, hop])

theorem stepRoleBinding_error_shape (gw : ParentIdentity) (b : Builder)
    (st : RunState) (h : st.error = none) :
    (stepRoleBinding gw b st).error = none ∨
    ∃ ew, (stepRoleBinding gw b st).error =
      some (OpError.wrapped "unable to create role binding" ew) := by
  cases hop : opIfNewOrOwned gw st.store.roleBindings b.roleBinding
      (replaceOp RoleBinding) with
  | error ew => exact Or.inr ⟨ew, by simp [stepRoleBinding, h, hop]⟩
  | ok out => exact Or.inl (by simp [stepRoleBinding, h, hop])

theorem stepService_error_shape (gw : ParentIdentity) (b : Builder)
    (st : RunState) (h : st.error = none) :
    (stepService gw b st).error = none ∨
    ∃ ew, (stepService gw b st).error =
      some (OpError.wrapped "unable to create service" ew) := by
  cases hop : opIfNewOrOwned gw st.store.services b.service serviceMergeOp with
  | error ew => exact Or.inr ⟨ew, by simp [stepService, h, hop]⟩
  | ok out => exact Or.inl (by simp [stepService, h, hop])

theorem stepDeployment_error_shape (gw : ParentIdentity) (b : Builder)
    (st : RunState) (h : st.error = none) :
    (stepDeployment gw b st).error = none ∨
    (∃ msg, (stepDeployment gw b st).error =
        some (OpError.wrapped "unable to build deployment"
          (OpError.buildError msg)) ∧
      (stepDeployment gw b st).attempts = st.attempts) ∨
    (∃ ew, (stepDeployment gw b st).error =
        some (OpError.wrapped "unable to create deployment" ew) ∧
      (stepDeployment gw b st).attempts =
        st.attempts ++ [ChildKind.deployment]) := by
  cases hb : b.deployment with
  | error msg =>
    refine Or.inr (Or.inl ⟨msg, ?_, ?_⟩) <;> simp [stepDeployment, h, hb]
  | ok built =>
    cases hop : opIfNewOrOwned gw st.store.deployments built
        (fun ex w => b.mergeDeployments ex w) with
    | error ew =>
      refine Or.inr (Or.inr ⟨ew, ?_, ?_⟩) <;> simp [stepDeployment, h, hb, hop]
    | ok out => exact Or.inl (by simp [stepDeployment, h, hb, hop])

theorem gcc_error_is_storeError
    (classGet : String → GetOutcome GatewayClass)
    (configGet : String → GetOutcome GatewayClassConfig) (gw : MeshGateway)
    (e : OpError)
    (h : getGatewayClassConfigForGateway classGet configGet gw = .error e) :
    ∃ code, e = OpError.storeError code := by
  cases hc : classGet gw.gatewayClassName with
  | err code =>
    simp [getGatewayClassConfigForGateway, getGatewayClassForGateway, hc] at h
    exact ⟨code, h.symm⟩
  | notFound =>
    simp [getGatewayClassConfigForGateway, getGatewayClassForGateway, hc,
      getGatewayClassConfigForGatewayClass] at h
  | found c =>
    cases hr : c.parametersRef with
    | none =>
      simp [getGatewayClassConfigForGateway, getGatewayClassForGateway, hc,
        getGatewayClassConfigForGatewayClass, hr] at h
    | some ref =>
      cases hg : (ref.group != MeshGroup || ref.kind != "GatewayClassConfig") with
      | true =>
        simp [getGatewayClassConfigForGateway, getGatewayClassForGateway, hc,
          getGatewayClassConfigForGatewayClass, hr, hg] at h
      | false =>
        cases hcfg : configGet ref.name with
        | found cfg =>
          simp [getGatewayClassConfigForGateway, getGatewayClassForGateway, hc,
            getGatewayClassConfigForGatewayClass, hr, hg, hcfg] at h
        | notFound =>
          simp [getGatewayClassConfigForGateway, getGatewayClassForGateway, hc,
            getGatewayClassConfigForGatewayClass, hr, hg, hcfg] at h
        | err code =>
          simp [getGatewayClassConfigForGateway, getGatewayClassForGateway, hc,
            getGatewayClassConfigForGatewayClass, hr, hg, hcfg] at h
          exact ⟨code, h.symm⟩

/-- C2: within one reconcile the child upserts are attempted strictly in the
fixed order ServiceAccount, Role, RoleBinding, Service, Deployment: the
attempt trace is always a prefix of that order and is the full order when no
error occurred; moreover, once any step fails, no later kind's upsert is
invoked — the error names the failing step and the attempt trace stops
exactly there (a class-config resolution error before any attempt, a failing
upsert as the last attempt, a Deployment build error after only the first
four attempts) — and the sub-store of every unattempted kind is exactly as
it started. -/
theorem pipeline_fixed_order (env : ReconcileEnv) (gw : MeshGateway)
    (s : Store) :
    (∃ n, (onCreateUpdate env gw s).attempts = kindOrder.take n) ∧
    ((onCreateUpdate env gw s).error = none →
      (onCreateUpdate env gw s).attempts = kindOrder) ∧
    (∀ k : ChildKind, k ∉ (onCreateUpdate env gw s).attempts →
      kindUntouched s (onCreateUpdate env gw s).store k) ∧
    (∀ e, (onCreateUpdate env gw s).error = some e →
      ((∃ code, e = OpError.storeError code) ∧
        (onCreateUpdate env gw s).attempts = kindOrder.take 0) ∨
      ((∃ ew, e = OpError.wrapped "unable to create service account" ew) ∧
        (onCreateUpdate env gw s).attempts = kindOrder.take 1) ∨
      ((∃ ew, e = OpError.wrapped "unable to create role" ew) ∧
        (onCreateUpdate env gw s).attempts = kindOrder.take 2) ∨
      ((∃ ew, e = OpError.wrapped "unable to create role binding" ew) ∧
        (onCreateUpdate env gw s).attempts = kindOrder.take 3) ∨
      ((∃ ew, e = OpError.wrapped "unable to create service" ew) ∧
        (onCreateUpdate env gw s).attempts = kindOrder.take 4) ∨
      ((∃ msg, e = OpError.wrapped "unable to build deployment"
          (OpError.buildError msg)) ∧
        (onCreateUpdate env gw s).attempts = kindOrder.take 4) ∨
      ((∃ ew, e = OpError.wrapped "unable to create deployment" ew) ∧
        (onCreateUpdate env gw s).attempts = kindOrder.take 5)) := by
  cases hres : getGatewayClassConfigForGateway env.classGet env.configGet gw with
  | error e =>
    have hrun : onCreateUpdate env gw s = { initState s with error := some e } := by
      simp [onCreateUpdate, hres]
    rw [hrun]
    refine ⟨⟨0, rfl⟩, ?_, ?_, ?_⟩
    · intro h; exact Option.noConfusion h
    · intro k _
      cases k <;> rfl
    · intro e2 he2
      obtain ⟨code, hcode⟩ :=
        gcc_error_is_storeError env.classGet env.configGet gw e hres
      have heq : e = e2 := Option.some.inj he2
      exact Or.inl ⟨⟨code, heq ▸ hcode⟩, rfl⟩
  | ok gcc =>
    have hrun : onCreateUpdate env gw s =
        stepDeployment gw.id (env.builder gcc)
          (stepService gw.id (env.builder gcc)
            (stepRoleBinding gw.id (env.builder gcc)
              (stepRole gw.id (env.builder gcc)
                (stepServiceAccount gw.id (env.builder gcc) (initState s))))) := by
      simp [onCreateUpdate, hres]
    obtain ⟨sa1, sa2, sa3, sa4, sa5, sa6, sa7, sa8, sa9, sa10⟩ :=
      stepServiceAccount_facts gw.id (env.builder gcc) (initState s)
    obtain ⟨ro1, ro2, ro3, ro4, ro5, ro6, ro7, ro8, ro9, ro10⟩ :=
      stepRole_facts gw.id (env.builder gcc)
        (stepServiceAccount gw.id (env.builder gcc) (initState s))
    obtain ⟨rb1, rb2, rb3, rb4, rb5, rb6, rb7, rb8, rb9, rb10⟩ :=
      stepRoleBinding_facts gw.id (env.builder gcc)
        (stepRole gw.id (env.builder gcc)
          (stepServiceAccount gw.id (env.builder gcc) (initState s)))
    obtain ⟨sv1, sv2, sv3, sv4, sv5, sv6, sv7, sv8, sv9⟩ :=
      stepService_facts gw.id (env.builder gcc)
        (stepRoleBinding gw.id (env.builder gcc)
          (stepRole gw.id (env.builder gcc)
            (stepServiceAccount gw.id (env.builder gcc) (initState s))))
    obtain ⟨dp1, dp2, dp3, dp4, dp5, dp6, dp7, dp8, dp9⟩ :=
      stepDeployment_facts gw.id (env.builder gcc)
        (stepService gw.id (env.builder gcc)
          (stepRoleBinding gw.id (env.builder gcc)
            (stepRole gw.id (env.builder gcc)
              (stepServiceAccount gw.id (env.builder gcc) (initState s)))))
    set st1 := stepServiceAccount gw.id (env.builder gcc) (initState s) with hd1
    set st2 := stepRole gw.id (env.builder gcc) st1 with hd2
    set st3 := stepRoleBinding gw.id (env.builder gcc) st2 with hd3
    set st4 := stepService gw.id (env.builder gcc) st3 with hd4
    set st5 := stepDeployment gw.id (env.builder gcc) st4 with hd5
    rw [hrun]
    have hatt1 : st1.attempts = [ChildKind.serviceAccount] := by
      simpa using sa8 rfl
    cases herr1 : st1.error with
    | some e1 =>
      have h2 : st2 = st1 := ro1 e1 herr1
      have h3 : st3 = st1 := by
        rw [rb1 e1 (by rw [h2, herr1]), h2]
      have h4 : st4 = st1 := by
        rw [sv1 e1 (by rw [h3, herr1]), h3]
      have h5 : st5 = st1 := by
        rw [dp1 e1 (by rw [h4, herr1]), h4]
      rw [h5]
      have hshape := stepServiceAccount_error_shape gw.id (env.builder gcc)
        (initState s) rfl
      rw [← hd1] at hshape
      rcases hshape with hnone | ⟨ew, hsome⟩
      · rw [herr1] at hnone; exact absurd hnone (by simp)
      have he1eq : e1 = OpError.wrapped "unable to create service account" ew := by
        rw [herr1] at hsome
        exact Option.some.inj hsome
      refine ⟨⟨1, by rw [hatt1]; rfl⟩, ?_, ?_, ?_⟩
      · intro h; rw [herr1] at h; exact Option.noConfusion h
      · intro k hk
        rw [hatt1] at hk
        cases k with
        | serviceAccount => simp at hk
        | role => show st1.store.roles = s.roles; rw [sa2]; rfl
        | roleBinding => show st1.store.roleBindings = s.roleBindings; rw [sa3]; rfl
        | service => show st1.store.services = s.services; rw [sa4]; rfl
        | deployment => show st1.store.deployments = s.deployments; rw [sa5]; rfl
      · intro e he
        rw [herr1] at he
        have heq : e1 = e := Option.some.inj he
        exact Or.inr (Or.inl ⟨⟨ew, heq ▸ he1eq⟩, by rw [hatt1]; rfl⟩)
    | none =>
      have hatt2 : st2.attempts =
          [ChildKind.serviceAccount, ChildKind.role] := by
        simpa [hatt1] using ro8 herr1
      cases herr2 : st2.error with
      | some e2 =>
        have h3 : st3 = st2 := rb1 e2 herr2
        have h4 : st4 = st2 := by
          rw [sv1 e2 (by rw [h3, herr2]), h3]
        have h5 : st5 = st2 := by
          rw [dp1 e2 (by rw [h4, herr2]), h4]
        rw [h5]
        have hshape := stepRole_error_shape gw.id (env.builder gcc) st1 herr1
        rw [← hd2] at hshape
        rcases hshape with hnone | ⟨ew, hsome⟩
        · rw [herr2] at hnone; exact absurd hnone (by simp)
        have he2eq : e2 = OpError.wrapped "unable to create role" ew := by
          rw [herr2] at hsome
          exact Option.some.inj hsome
        refine ⟨⟨2, by rw [hatt2]; rfl⟩, ?_, ?_, ?_⟩
        · intro h; rw [herr2] at h; exact Option.noConfusion h
        · intro k hk
          rw [hatt2] at hk
          cases k with
          | serviceAccount => simp at hk
          | role => simp at hk
          | roleBinding =>
              show st2.store.roleBindings = s.roleBindings
              rw [ro3, sa3]
              rfl
          | service => show st2.store.services = s.services; rw [ro4, sa4]; rfl
          | deployment =>
              show st2.store.deployments = s.deployments
              rw [ro5, sa5]
              rfl
        · intro e he
          rw [herr2] at he
          have heq : e2 = e := Option.some.inj he
          exact Or.inr (Or.inr (Or.inl ⟨⟨ew, heq ▸ he2eq⟩,
            by rw [hatt2]; rfl⟩))
      | none =>
        have hatt3 : st3.attempts =
            [ChildKind.serviceAccount, ChildKind.role,
              ChildKind.roleBinding] := by
          simpa [hatt2] using rb8 herr2
        cases herr3 : st3.error with
        | some e3 =>
          have h4 : st4 = st3 := sv1 e3 herr3
          have h5 : st5 = st3 := by
            rw [dp1 e3 (by rw [h4, herr3]), h4]
          rw [h5]
          have hshape := stepRoleBinding_error_shape gw.id (env.builder gcc)
            st2 herr2
          rw [← hd3] at hshape
          rcases hshape with hnone | ⟨ew, hsome⟩
          · rw [herr3] at hnone; exact absurd hnone (by simp)
          have he3eq : e3 = OpError.wrapped "unable to create role binding" ew := by
            rw [herr3] at hsome
            exact Option.some.inj hsome
          refine ⟨⟨3, by rw [hatt3]; rfl⟩, ?_, ?_, ?_⟩
          · intro h; rw [herr3] at h; exact Option.noConfusion h
          · intro k hk
            rw [hatt3] at hk
            cases k with
            | serviceAccount => simp at hk
            | role => simp at hk
            | roleBinding => simp at hk
            | service =>
                show st3.store.services = s.services
                rw [rb4, ro4, sa4]
                rfl
            | deployment =>
                show st3.store.deployments = s.deployments
                rw [rb5, ro5, sa5]
                rfl
          · intro e he
            rw [herr3] at he
            have heq : e3 = e := Option.some.inj he
            exact Or.inr (Or.inr (Or.inr (Or.inl ⟨⟨ew, heq ▸ he3eq⟩,
              by rw [hatt3]; rfl⟩)))
        | none =>
          have hatt4 : st4.attempts =
              [ChildKind.serviceAccount, ChildKind.role,
                ChildKind.roleBinding, ChildKind.service] := by
            simpa [hatt3] using sv7 herr3
          cases herr4 : st4.error with
          | some e4 =>
            have h5 : st5 = st4 := dp1 e4 herr4
            rw [h5]
            have hshape := stepService_error_shape gw.id (env.builder gcc)
              st3 herr3
            rw [← hd4] at hshape
            rcases hshape with hnone | ⟨ew, hsome⟩
            · rw [herr4] at hnone; exact absurd hnone (by simp)
            have he4eq : e4 = OpError.wrapped "unable to create service" ew := by
              rw [herr4] at hsome
              exact Option.some.inj hsome
            refine ⟨⟨4, by rw [hatt4]; rfl⟩, ?_, ?_, ?_⟩
            · intro h; rw [herr4] at h; exact Option.noConfusion h
            · intro k hk
              rw [hatt4] at hk
              cases k with
              | serviceAccount => simp at hk
              | role => simp at hk
              | roleBinding => simp at hk
              | service => simp at hk
              | deployment =>
                  show st4.store.deployments = s.deployments
                  rw [sv5, rb5, ro5, sa5]
                  rfl
            · intro e he
              rw [herr4] at he
              have heq : e4 = e := Option.some.inj he
              exact Or.inr (Or.inr (Or.inr (Or.inr (Or.inl
                ⟨⟨ew, heq ▸ he4eq⟩, by rw [hatt4]; rfl⟩))))
          | none =>
            cases herr5 : st5.error with
            | some e5 =>
              have hshape := stepDeployment_error_shape gw.id (env.builder gcc)
                st4 herr4
              rw [← hd5] at hshape
              rcases hshape with hnone | ⟨msg, hsome, hatt5⟩ | ⟨ew, hsome, hatt5⟩
              · rw [herr5] at hnone; exact absurd hnone (by simp)
              · have he5eq : e5 = OpError.wrapped "unable to build deployment"
                    (OpError.buildError msg) := by
                  rw [herr5] at hsome
                  exact Option.some.inj hsome
                refine ⟨⟨4, by rw [hatt5, hatt4]; rfl⟩, ?_, ?_, ?_⟩
                · intro h; exact Option.noConfusion h
                · intro k hk
                  rw [hatt5, hatt4] at hk
                  have hstore : st5.store = st4.store :=
                    (dp8 herr4 (by simp [herr5])).1
                  cases k with
                  | serviceAccount => simp at hk
                  | role => simp at hk
                  | roleBinding => simp at hk
                  | service => simp at hk
                  | deployment =>
                      show st5.store.deployments = s.deployments
                      rw [hstore, sv5, rb5, ro5, sa5]
                      rfl
                · intro e he
                  have heq : e5 = e := Option.some.inj he
                  exact Or.inr (Or.inr (Or.inr (Or.inr (Or.inr (Or.inl
                    ⟨⟨msg, heq ▸ he5eq⟩, by rw [hatt5, hatt4]; rfl⟩)))))
              · have he5eq : e5 = OpError.wrapped "unable to create deployment"
                    ew := by
                  rw [herr5] at hsome
                  exact Option.some.inj hsome
                refine ⟨⟨5, by rw [hatt5, hatt4]; rfl⟩, ?_, ?_, ?_⟩
                · intro h; exact Option.noConfusion h
                · intro k hk
                  rw [hatt5, hatt4] at hk
                  cases k with
                  | serviceAccount => simp at hk
                  | role => simp at hk
                  | roleBinding => simp at hk
                  | service => simp at hk
                  | deployment => simp at hk
                · intro e he
                  have heq : e5 = e := Option.some.inj he
                  exact Or.inr (Or.inr (Or.inr (Or.inr (Or.inr (Or.inr
                    ⟨⟨ew, heq ▸ he5eq⟩, by rw [hatt5, hatt4]; rfl⟩)))))
            | none =>
              have hatt5 : st5.attempts = kindOrder := by
                have := dp9 herr4 herr5
                rw [this, hatt4]
                rfl
              refine ⟨⟨5, by rw [hatt5]; rfl⟩, fun _ => hatt5, ?_, ?_⟩
              · intro k hk
                rw [hatt5] at hk
                cases k with
                | serviceAccount => simp [kindOrder] at hk
                | role => simp [kindOrder] at hk
                | roleBinding => simp [kindOrder] at hk
                | service => simp [kindOrder] at hk
                | deployment => simp [kindOrder] at hk
              · intro e he
                exact absurd he (by simp)

theorem chain_replay (gw : ParentIdentity) (b : Builder)
    (hmdFix : ∀ o d, b.mergeDeployments (some (b.mergeDeployments o d)) d =
      b.mergeDeployments o d)
    (hmdMeta : ∀ o d, (b.mergeDeployments o d).meta.ns = d.meta.ns ∧
      (b.mergeDeployments o d).meta.name = d.meta.name ∧
      (b.mergeDeployments o d).meta.ownerReferences = d.meta.ownerReferences)
    (st0 tt0 : RunState)
    (h0err : st0.error = none) (t0err : tt0.error = none)
    (h0sm : tt0.serviceMerges = []) (h0dm : tt0.deploymentMerges = [])
    (hstore : tt0.store =
      (stepDeployment gw b (stepService gw b (stepRoleBinding gw b
        (stepRole gw b (stepServiceAccount gw b st0))))).store) :
    (stepDeployment gw b (stepService gw b (stepRoleBinding gw b
      (stepRole gw b (stepServiceAccount gw b tt0))))).store = tt0.store ∧
    (∀ c ∈ (stepDeployment gw b (stepService gw b (stepRoleBinding gw b
      (stepRole gw b (stepServiceAccount gw b tt0))))).serviceMerges,
      c.observed = some c.result) ∧
    (∀ c ∈ (stepDeployment gw b (stepService gw b (stepRoleBinding gw b
      (stepRole gw b (stepServiceAccount gw b tt0))))).deploymentMerges,
      c.observed = some c.result) := by
  obtain ⟨-, -, -, -, -, -, -, -, -, -⟩ :=
    stepServiceAccount_facts gw b st0
  obtain ⟨-, ro2, ro3, -, -, -, -, -, -, -⟩ :=
    stepRole_facts gw b (stepServiceAccount gw b st0)
  obtain ⟨-, rb2, rb3, rb4, -, -, -, -, -, -⟩ :=
    stepRoleBinding_facts gw b (stepRole gw b (stepServiceAccount gw b st0))
  obtain ⟨-, sv2, sv3, sv4, sv5, -, -, -, -⟩ :=
    stepService_facts gw b (stepRoleBinding gw b (stepRole gw b
      (stepServiceAccount gw b st0)))
  obtain ⟨-, dp2, dp3, dp4, dp5, -, -, -, -⟩ :=
    stepDeployment_facts gw b (stepService gw b (stepRoleBinding gw b
      (stepRole gw b (stepServiceAccount gw b st0))))
  obtain ⟨-, -, -, -, -, qa6, qa7, -, -, -⟩ :=
    stepServiceAccount_facts gw b tt0
  obtain ⟨qo1, -, -, -, -, qo6, qo7, -, -, -⟩ :=
    stepRole_facts gw b (stepServiceAccount gw b tt0)
  obtain ⟨qb1, -, -, -, -, qb6, qb7, -, -, -⟩ :=
    stepRoleBinding_facts gw b (stepRole gw b (stepServiceAccount gw b tt0))
  obtain ⟨qv1, -, -, -, -, qv6, -, -, -⟩ :=
    stepService_facts gw b (stepRoleBinding gw b (stepRole gw b
      (stepServiceAccount gw b tt0)))
  obtain ⟨qp1, -, -, -, -, qp6, -, -, -⟩ :=
    stepDeployment_facts gw b (stepService gw b (stepRoleBinding gw b
      (stepRole gw b (stepServiceAccount gw b tt0))))
  obtain ⟨A1, E1⟩ := stepServiceAccount_replay gw b st0 tt0 h0err t0err
    (by rw [hstore, dp2, sv2, rb2, ro2])
  cases herr1 : (stepServiceAccount gw b st0).error with
  | some e1 =>
    rw [herr1] at E1
    obtain ⟨e1t, he1t⟩ : ∃ e, (stepServiceAccount gw b tt0).error = some e := by
      cases ht : (stepServiceAccount gw b tt0).error with
      | none => exact absurd (E1.mp ht) (by simp)
      | some e => exact ⟨e, rfl⟩
    have hT2 := qo1 e1t he1t
    have hT3 := qb1 e1t (by rw [hT2, he1t])
    have hT4 := qv1 e1t (by rw [hT3, hT2, he1t])
    have hT5 := qp1 e1t (by rw [hT4, hT3, hT2, he1t])
    refine ⟨?_, ?_, ?_⟩
    · rw [hT5, hT4, hT3, hT2, A1]
    · intro c hc
      rw [hT5, hT4, hT3, hT2, qa6, h0sm] at hc
      exact absurd hc (List.not_mem_nil c)
    · intro c hc
      rw [hT5, hT4, hT3, hT2, qa7, h0dm] at hc
      exact absurd hc (List.not_mem_nil c)
  | none =>
    have te1 : (stepServiceAccount gw b tt0).error = none := E1.mpr herr1
    obtain ⟨A2, E2⟩ := stepRole_replay gw b (stepServiceAccount gw b st0)
      (stepServiceAccount gw b tt0) herr1 te1
      (by rw [A1, hstore, dp3, sv3, rb3])
    cases herr2 : (stepRole gw b (stepServiceAccount gw b st0)).error with
    | some e2 =>
      rw [herr2] at E2
      obtain ⟨e2t, he2t⟩ : ∃ e,
          (stepRole gw b (stepServiceAccount gw b tt0)).error = some e := by
        cases ht : (stepRole gw b (stepServiceAccount gw b tt0)).error with
        | none => exact absurd (E2.mp ht) (by simp)
        | some e => exact ⟨e, rfl⟩
      have hT3 := qb1 e2t he2t
      have hT4 := qv1 e2t (by rw [hT3, he2t])
      have hT5 := qp1 e2t (by rw [hT4, hT3, he2t])
      refine ⟨?_, ?_, ?_⟩
      · rw [hT5, hT4, hT3, A2, A1]
      · intro c hc
        rw [hT5, hT4, hT3, qo6, qa6, h0sm] at hc
        exact absurd hc (List.not_mem_nil c)
      · intro c hc
        rw [hT5, hT4, hT3, qo7, qa7, h0dm] at hc
        exact absurd hc (List.not_mem_nil c)
    | none =>
      have te2 : (stepRole gw b (stepServiceAccount gw b tt0)).error = none :=
        E2.mpr herr2
      obtain ⟨A3, E3⟩ := stepRoleBinding_replay gw b
        (stepRole gw b (stepServiceAccount gw b st0))
        (stepRole gw b (stepServiceAccount gw b tt0)) herr2 te2
        (by rw [A2, A1, hstore, dp4, sv4])
      cases herr3 : (stepRoleBinding gw b (stepRole gw b
          (stepServiceAccount gw b st0))).error with
      | some e3 =>
        rw [herr3] at E3
        obtain ⟨e3t, he3t⟩ : ∃ e, (stepRoleBinding gw b (stepRole gw b
            (stepServiceAccount gw b tt0))).error = some e := by
          cases ht : (stepRoleBinding gw b (stepRole gw b
              (stepServiceAccount gw b tt0))).error with
          | none => exact absurd (E3.mp ht) (by simp)
          | some e => exact ⟨e, rfl⟩
        have hT4 := qv1 e3t he3t
        have hT5 := qp1 e3t (by rw [hT4, he3t])
        refine ⟨?_, ?_, ?_⟩
        · rw [hT5, hT4, A3, A2, A1]
        · intro c hc
          rw [hT5, hT4, qb6, qo6, qa6, h0sm] at hc
          exact absurd hc (List.not_mem_nil c)
        · intro c hc
          rw [hT5, hT4, qb7, qo7, qa7, h0dm] at hc
          exact absurd hc (List.not_mem_nil c)
      | none =>
        have te3 : (stepRoleBinding gw b (stepRole gw b
            (stepServiceAccount gw b tt0))).error = none := E3.mpr herr3
        obtain ⟨A4, E4, SM4⟩ := stepService_replay gw b
          (stepRoleBinding gw b (stepRole gw b (stepServiceAccount gw b st0)))
          (stepRoleBinding gw b (stepRole gw b (stepServiceAccount gw b tt0)))
          herr3 te3 (by rw [A3, A2, A1, hstore, dp5])
        cases herr4 : (stepService gw b (stepRoleBinding gw b (stepRole gw b
            (stepServiceAccount gw b st0)))).error with
        | some e4 =>
          rw [herr4] at E4
          obtain ⟨e4t, he4t⟩ : ∃ e, (stepService gw b (stepRoleBinding gw b
              (stepRole gw b (stepServiceAccount gw b tt0)))).error = some e := by
            cases ht : (stepService gw b (stepRoleBinding gw b (stepRole gw b
                (stepServiceAccount gw b tt0)))).error with
            | none => exact absurd (E4.mp ht) (by simp)
            | some e => exact ⟨e, rfl⟩
          have hT5 := qp1 e4t he4t
          refine ⟨?_, ?_, ?_⟩
          · rw [hT5, A4, A3, A2, A1]
          · intro c hc
            rw [hT5] at hc
            rcases SM4 c hc with h | h
            · rw [qb6, qo6, qa6, h0sm] at h
              exact absurd h (List.not_mem_nil c)
            · exact h
          · intro c hc
            rw [hT5, qv6, qb7, qo7, qa7, h0dm] at hc
            exact absurd hc (List.not_mem_nil c)
        | none =>
          have te4 : (stepService gw b (stepRoleBinding gw b (stepRole gw b
              (stepServiceAccount gw b tt0)))).error = none := E4.mpr herr4
          obtain ⟨A5, E5, DM5⟩ := stepDeployment_replay gw b
            (stepService gw b (stepRoleBinding gw b (stepRole gw b
              (stepServiceAccount gw b st0))))
            (stepService gw b (stepRoleBinding gw b (stepRole gw b
              (stepServiceAccount gw b tt0))))
            hmdFix hmdMeta herr4 te4 (by rw [A4, A3, A2, A1, hstore])
          refine ⟨?_, ?_, ?_⟩
          · rw [A5, A4, A3, A2, A1]
          · intro c hc
            rw [qp6] at hc
            rcases SM4 c hc with h | h
            · rw [qb6, qo6, qa6, h0sm] at h
              exact absurd h (List.not_mem_nil c)
            · exact h
          · intro c hc
            rcases DM5 c hc with h | h
            · rw [qv6, qb7, qo7, qa7, h0dm] at h
              exact absurd h (List.not_mem_nil c)
            · exact h

theorem stepServiceAccount_writes (gw : ParentIdentity) (b : Builder)
    (st : RunState) :
    ∀ w ∈ (stepServiceAccount gw b st).writes,
      w ∈ st.writes ∨ parentRef gw ∈ w.2 := by
  cases herr : st.error with
  | some e =>
    simp only [stepServiceAccount, herr, Option.isSome_some, if_true]
    exact fun w h => Or.inl h
  | none =>
    cases hop : opIfNewOrOwned gw st.store.serviceAccounts b.serviceAccount
        (replaceOp ServiceAccount) with
    | error e2 =>
      simp only [stepServiceAccount, herr, Option.isSome_none,
        Bool.false_eq_true, if_false, hop]
      exact fun w h => Or.inl h
    | ok out =>
      obtain ⟨hs, hw, -⟩ := opIfNewOrOwned_ok_inv hop
      have hmem : parentRef gw ∈ (HasMeta.meta out.written).ownerReferences := by
        have hwst : out.written = out.stamped := hw
        rw [hwst, hs]
        exact parentRef_mem_setControllerReference gw b.serviceAccount
      intro w hwmem
      have : (stepServiceAccount gw b st).writes = st.writes ++
          [(ChildKind.serviceAccount,
            (HasMeta.meta out.written).ownerReferences)] := by
        simp [stepServiceAccount, herr, hop]
      rw [this] at hwmem
      rcases List.mem_append.mp hwmem with h | h
      · exact Or.inl h
      · rw [List.mem_singleton.mp h]
        exact Or.inr hmem

theorem stepRole_writes (gw : ParentIdentity) (b : Builder) (st : RunState) :
    ∀ w ∈ (stepRole gw b st).writes, w ∈ st.writes ∨ parentRef gw ∈ w.2 := by
  cases herr : st.error with
  | some e =>
    simp only [stepRole, herr, Option.isSome_some, if_true]
    exact fun w h => Or.inl h
  | none =>
    cases hop : opIfNewOrOwned gw st.store.roles b.role (replaceOp Role) with
    | error e2 =>
      simp only [stepRole, herr, Option.isSome_none,
        Bool.false_eq_true, if_false, hop]
      exact fun w h => Or.inl h
    | ok out =>
      obtain ⟨hs, hw, -⟩ := opIfNewOrOwned_ok_inv hop
      have hmem : parentRef gw ∈ (HasMeta.meta out.written).ownerReferences := by
        have hwst : out.written = out.stamped := hw
        rw [hwst, hs]
        exact parentRef_mem_setControllerReference gw b.role
      intro w hwmem
      have : (stepRole gw b st).writes = st.writes ++
          [(ChildKind.role, (HasMeta.meta out.written).ownerReferences)] := by
        simp [stepRole, herr, hop]
      rw [this] at hwmem
      rcases List.mem_append.mp hwmem with h | h
      · exact Or.inl h
      · rw [List.mem_singleton.mp h]
        exact Or.inr hmem

theorem stepRoleBinding_writes (gw : ParentIdentity) (b : Builder)
    (st : RunState) :
    ∀ w ∈ (stepRoleBinding gw b st).writes,
      w ∈ st.writes ∨ parentRef gw ∈ w.2 := by
  cases herr : st.error with
  | some e =>
    simp only [stepRoleBinding, herr, Option.isSome_some, if_true]
    exact fun w h => Or.inl h
  | none =>
    cases hop : opIfNewOrOwned gw st.store.roleBindings b.roleBinding
        (replaceOp RoleBinding) with
    | error e2 =>
      simp only [stepRoleBinding, herr, Option.isSome_none,
        Bool.false_eq_true, if_false, hop]
      exact fun w h => Or.inl h
    | ok out =>
      obtain ⟨hs, hw, -⟩ := opIfNewOrOwned_ok_inv hop
      have hmem : parentRef gw ∈ (HasMeta.meta out.written).ownerReferences := by
        have hwst : out.written = out.stamped := hw
        rw [hwst, hs]
        exact parentRef_mem_setControllerReference gw b.roleBinding
      intro w hwmem
      have : (stepRoleBinding gw b st).writes = st.writes ++
          [(ChildKind.roleBinding,
            (HasMeta.meta out.written).ownerReferences)] := by
        simp [stepRoleBinding, herr, hop]
      rw [this] at hwmem
      rcases List.mem_append.mp hwmem with h | h
      · exact Or.inl h
      · rw [List.mem_singleton.mp h]
        exact Or.inr hmem

theorem stepService_writes (gw : ParentIdentity) (b : Builder)
    (st : RunState) :
    ∀ w ∈ (stepService gw b st).writes, w ∈ st.writes ∨ parentRef gw ∈ w.2 := by
  cases herr : st.error with
  | some e =>
    simp only [stepService, herr, Option.isSome_some, if_true]
    exact fun w h => Or.inl h
  | none =>
    cases hop : opIfNewOrOwned gw st.store.services b.service serviceMergeOp with
    | error e2 =>
      simp only [stepService, herr, Option.isSome_none,
        Bool.false_eq_true, if_false, hop]
      exact fun w h => Or.inl h
    | ok out =>
      obtain ⟨hs, hw, -⟩ := opIfNewOrOwned_ok_inv hop
      have hmem : parentRef gw ∈ (HasMeta.meta out.written).ownerReferences := by
        rw [hw]
        show parentRef gw ∈
          (serviceMergeOp out.observed out.stamped).meta.ownerReferences
        rw [serviceMergeOp_refs, hs]
        exact parentRef_mem_setControllerReference gw b.service
      intro w hwmem
      have : (stepService gw b st).writes = st.writes ++
          [(ChildKind.service, (HasMeta.meta out.written).ownerReferences)] := by
        simp [stepService, herr, hop]
      rw [this] at hwmem
      rcases List.mem_append.mp hwmem with h | h
      · exact Or.inl h
      · rw [List.mem_singleton.mp h]
        exact Or.inr hmem

theorem stepDeployment_writes (gw : ParentIdentity) (b : Builder)
    (st : RunState)
    (hmdRefs : ∀ o d, (b.mergeDeployments o d).meta.ownerReferences =
      d.meta.ownerReferences) :
    ∀ w ∈ (stepDeployment gw b st).writes,
      w ∈ st.writes ∨ parentRef gw ∈ w.2 := by
  cases herr : st.error with
  | some e =>
    simp only [stepDeployment, herr, Option.isSome_some, if_true]
    exact fun w h => Or.inl h
  | none =>
    cases hb : b.deployment with
    | error msg =>
      simp only [stepDeployment, herr, Option.isSome_none,
        Bool.false_eq_true, if_false, hb]
      exact fun w h => Or.inl h
    | ok built =>
      cases hop : opIfNewOrOwned gw st.store.deployments built
          (fun ex w => b.mergeDeployments ex w) with
      | error e2 =>
        simp only [stepDeployment, herr, Option.isSome_none,
          Bool.false_eq_true, if_false, hb, hop]
        exact fun w h => Or.inl h
      | ok out =>
        obtain ⟨hs, hw, -⟩ := opIfNewOrOwned_ok_inv hop
        have hmem : parentRef gw ∈ (HasMeta.meta out.written).ownerReferences := by
          have hw2 : out.written = b.mergeDeployments out.observed out.stamped := hw
          rw [hw2]
          show parentRef gw ∈
            (b.mergeDeployments out.observed out.stamped).meta.ownerReferences
          rw [hmdRefs out.observed out.stamped, hs]
          exact parentRef_mem_setControllerReference gw built
        intro w hwmem
        have : (stepDeployment gw b st).writes = st.writes ++
            [(ChildKind.deployment,
              (HasMeta.meta out.written).ownerReferences)] := by
          simp [stepDeployment, herr, hb, hop]
        rw [this] at hwmem
        rcases List.mem_append.mp hwmem with h | h
        · exact Or.inl h
        · rw [List.mem_singleton.mp h]
          exact Or.inr hmem

theorem no_deployment_in_append {l1 l2 : List ChildKind} {k : ChildKind}
    (hk : k ≠ ChildKind.deployment) (h1 : ChildKind.deployment ∉ l1)
    (h : l2 = l1 ∨ l2 = l1 ++ [k]) : ChildKind.deployment ∉ l2 := by
  rcases h with rfl | rfl
  · exact h1
  · intro hmem
    rcases List.mem_append.mp hmem with hmem2 | hmem2
    · exact h1 hmem2
    · exact hk (List.mem_singleton.mp hmem2).symm

/-- C1: for every child kind and every upsert invocation, if a resource
exists at the target key and no owner reference on it matches both the
parent's UID and name, the upsert returns the NotOwned error (and, at every
pipeline step, the store is left unchanged — no write occurs); if the key
is absent, or some owning reference matches, the operation proceeds:
create when absent, update when present and owned. -/
theorem upsert_ownership_guard {α : Type} [HasMeta α] (gw : ParentIdentity)
    (sub : List (ObjectKey × α)) (writeSource : α) (op : Option α → α → α) :
    (∀ existing,
      storeGet sub (objKey (setControllerReference gw writeSource)) =
        some existing →
      (∀ ref ∈ (HasMeta.meta existing).ownerReferences,
        ¬(ref.uid = gw.uid ∧ ref.name = gw.name)) →
      opIfNewOrOwned gw sub writeSource op = .error .notOwned) ∧
    (storeGet sub (objKey (setControllerReference gw writeSource)) = none →
      opIfNewOrOwned gw sub writeSource op =
        .ok { sub := storePut sub
                (objKey (op none (setControllerReference gw writeSource)))
                (op none (setControllerReference gw writeSource)),
              observed := none,
              stamped := setControllerReference gw writeSource,
              written := op none (setControllerReference gw writeSource) }) ∧
    (∀ existing,
      storeGet sub (objKey (setControllerReference gw writeSource)) =
        some existing →
      (∃ ref ∈ (HasMeta.meta existing).ownerReferences,
        ref.uid = gw.uid ∧ ref.name = gw.name) →
      opIfNewOrOwned gw sub writeSource op =
        .ok { sub := storePut sub
                (objKey (op (some existing) (setControllerReference gw writeSource)))
                (op (some existing) (setControllerReference gw writeSource)),
              observed := some existing,
              stamped := setControllerReference gw writeSource,
              written := op (some existing)
                (setControllerReference gw writeSource) }) ∧
    (∀ (b : Builder) (st : RunState), st.error = none →
      (stepServiceAccount gw b st).error ≠ none →
      (stepServiceAccount gw b st).store = st.store) ∧
    (∀ (b : Builder) (st : RunState), st.error = none →
      (stepRole gw b st).error ≠ none → (stepRole gw b st).store = st.store) ∧
    (∀ (b : Builder) (st : RunState), st.error = none →
      (stepRoleBinding gw b st).error ≠ none →
      (stepRoleBinding gw b st).store = st.store) ∧
    (∀ (b : Builder) (st : RunState), st.error = none →
      (stepService gw b st).error ≠ none →
      (stepService gw b st).store = st.store) ∧
    (∀ (b : Builder) (st : RunState), st.error = none →
      (stepDeployment gw b st).error ≠ none →
      (stepDeployment gw b st).store = st.store) := by
  refine ⟨?_, ?_, ?_, ?_, ?_, ?_, ?_, ?_⟩
  · intro existing hget hno
    have hown : hasOwnerRef gw (HasMeta.meta existing).ownerReferences = false := by
      cases hb : hasOwnerRef gw (HasMeta.meta existing).ownerReferences with
      | false => rfl
      | true =>
        obtain ⟨r, hr, h1, h2⟩ := (hasOwnerRef_iff gw _).mp hb
        exact absurd ⟨h1, h2⟩ (hno r hr)
    exact opIfNewOrOwned_notOwned gw sub writeSource op existing hget hown
  · intro hget
    exact opIfNewOrOwned_absent gw sub writeSource op hget
  · intro existing hget hyes
    have hown : hasOwnerRef gw (HasMeta.meta existing).ownerReferences = true :=
      (hasOwnerRef_iff gw _).mpr hyes
    exact opIfNewOrOwned_owned gw sub writeSource op existing hget hown
  · intro b st h1 h2
    exact (stepServiceAccount_facts gw b st).2.2.2.2.2.2.2.2.2 h1 h2
  · intro b st h1 h2
    exact (stepRole_facts gw b st).2.2.2.2.2.2.2.2.2 h1 h2
  · intro b st h1 h2
    exact (stepRoleBinding_facts gw b st).2.2.2.2.2.2.2.2.2 h1 h2
  · intro b st h1 h2
    exact ((stepService_facts gw b st).2.2.2.2.2.2.2.2 h1 h2).1
  · intro b st h1 h2
    exact ((stepDeployment_facts gw b st).2.2.2.2.2.2.2.1 h1 h2).1

/-- Witness for C1: a Service owned by a different controller is present at
the target key, so the upsert refuses with NotOwned. -/
theorem upsert_ownership_guard_witness :
    opIfNewOrOwned gw0.id foreignStore.services builtService0 serviceMergeOp =
      .error .notOwned :=
  (upsert_ownership_guard gw0.id foreignStore.services builtService0
    serviceMergeOp).1 foreignService (by decide) (by decide)

/-- Witness for C2: on a fresh store the full order is attempted; on a store
whose Service is foreign-owned, the failing Service upsert is the last
attempt — the Deployment upsert is never invoked. -/
theorem pipeline_fixed_order_witness :
    (onCreateUpdate env0 gw0 emptyStore).attempts = kindOrder ∧
    (onCreateUpdate env0 gw0 foreignStore).attempts = kindOrder.take 4 := by
  constructor
  · exact (pipeline_fixed_order env0 gw0 emptyStore).2.1 (by decide)
  · rcases (pipeline_fixed_order env0 gw0 foreignStore).2.2.2
        (OpError.wrapped "unable to create service" OpError.notOwned)
        (by decide) with
      ⟨⟨c, hc⟩, ha⟩ | ⟨⟨ew, hc⟩, ha⟩ | ⟨⟨ew, hc⟩, ha⟩ | ⟨⟨ew, hc⟩, ha⟩ |
      ⟨⟨ew, hc⟩, ha⟩ | ⟨⟨m, hc⟩, ha⟩ | ⟨⟨ew, hc⟩, ha⟩
    · exact OpError.noConfusion hc
    · exact absurd (OpError.wrapped.inj hc).1 (by decide)
    · exact absurd (OpError.wrapped.inj hc).1 (by decide)
    · exact absurd (OpError.wrapped.inj hc).1 (by decide)
    · exact ha
    · exact absurd (OpError.wrapped.inj hc).1 (by decide)
    · exact absurd (OpError.wrapped.inj hc).1 (by decide)

/-- C3: when the observed Service's annotation mapping equals the desired
Service's and the port lists agree element-wise and in order on
(port-number, protocol) — or the observed Service is absent — the merge
returns the desired Service unchanged. -/
theorem mergeService_equal_returns_desired (observed desired : Service) :
    (annMapsEqual observed.meta.annotations desired.meta.annotations = true →
      observed.ports.map portProj = desired.ports.map portProj →
      mergeService (some observed) (some desired) = some desired) ∧
    mergeService none (some desired) = some desired := by
  constructor
  · intro hann hports
    have heq : areServicesEqual (some observed) (some desired) = true :=
      (areServicesEqual_iff observed desired).mpr ⟨hann, hports⟩
    rw [mergeService_some_eq, serviceMergeOp_of_equal observed desired heq]
  · rw [mergeService_some_eq, serviceMergeOp_none]

/-- Witness for C3: merging a Service with itself is the identity. -/
theorem mergeService_equal_returns_desired_witness :
    mergeService (some builtService0) (some builtService0) =
      some builtService0 :=
  (mergeService_equal_returns_desired builtService0 builtService0).1
    (by decide) rfl

/-- C4: when the observed Service's annotations or its (port-number,
protocol) port list differ from the desired Service's, the merge result
carries exactly the observed annotations and exactly the observed port
list, every other field coming from the desired Service. -/
theorem mergeService_preserves_observed_fields (observed desired : Service)
    (hdiff : ¬(annMapsEqual observed.meta.annotations
        desired.meta.annotations = true ∧
      observed.ports.map portProj = desired.ports.map portProj)) :
    mergeService (some observed) (some desired) =
      some { meta := { ns := desired.meta.ns, name := desired.meta.name,
                       annotations := observed.meta.annotations,
                       ownerReferences := desired.meta.ownerReferences },
             ports := observed.ports,
             selector := desired.selector,
             serviceType := desired.serviceType,
             clusterIP := desired.clusterIP } := by
  have hne : areServicesEqual (some observed) (some desired) = false := by
    cases h : areServicesEqual (some observed) (some desired) with
    | false => rfl
    | true => exact absurd ((areServicesEqual_iff observed desired).mp h) hdiff
  rw [mergeService_some_eq, serviceMergeOp_of_ne observed desired hne]
  rfl

/-- Witness for C4: a drifted annotation is kept from the observed Service
while the rest of the desired Service is preserved. -/
theorem mergeService_preserves_observed_fields_witness :
    mergeService (some driftedService) (some builtService0) =
      some { meta := { ns := builtService0.meta.ns,
                       name := builtService0.meta.name,
                       annotations := driftedService.meta.annotations,
                       ownerReferences := builtService0.meta.ownerReferences },
             ports := driftedService.ports,
             selector := builtService0.selector,
             serviceType := builtService0.serviceType,
             clusterIP := builtService0.clusterIP } :=
  mergeService_preserves_observed_fields driftedService builtService0
    (by decide)

/-- C5 counterexample: start from a store whose Service (at the target key,
owned by the parent) carries a platform-injected annotation. Reconciling
twice leaves the state idempotent, but the second run's Service merge does
NOT return its desired input unchanged — it re-applies the observed
annotations — so the claim that every second-run merge strategy is a no-op
producing its desired input unchanged is false on this input. -/
theorem second_run_merge_not_noop :
    ∃ c ∈ (onCreateUpdate env0 gw0
      (onCreateUpdate env0 gw0 driftedStore).store).serviceMerges,
      ¬ c.result = c.desired := by decide

/-- C5 (amended): reconciling the same parent twice with no external
mutation between the runs — given an external Deployment merge that is
idempotent and preserves the desired payload's key and owner references —
leaves the stored state after the second run identical to the state after
the first run, and every Service or Deployment merge invoked in the second
run returns exactly the object already stored at its key (so its write
changes nothing); it need not return its desired input unchanged. -/
theorem reconcile_idempotent (env : ReconcileEnv) (gw : MeshGateway)
    (s : Store)
    (hmdFix : ∀ gcc o d, (env.builder gcc).mergeDeployments
      (some ((env.builder gcc).mergeDeployments o d)) d =
      (env.builder gcc).mergeDeployments o d)
    (hmdMeta : ∀ gcc o d,
      ((env.builder gcc).mergeDeployments o d).meta.ns = d.meta.ns ∧
      ((env.builder gcc).mergeDeployments o d).meta.name = d.meta.name ∧
      ((env.builder gcc).mergeDeployments o d).meta.ownerReferences =
        d.meta.ownerReferences) :
    (onCreateUpdate env gw (onCreateUpdate env gw s).store).store =
      (onCreateUpdate env gw s).store ∧
    (∀ c ∈ (onCreateUpdate env gw
        (onCreateUpdate env gw s).store).serviceMerges,
      c.observed = some c.result) ∧
    (∀ c ∈ (onCreateUpdate env gw
        (onCreateUpdate env gw s).store).deploymentMerges,
      c.observed = some c.result) := by
  cases hres : getGatewayClassConfigForGateway env.classGet env.configGet gw with
  | error e => simp [onCreateUpdate, hres, initState]
  | ok gcc =>
    have hrun : ∀ x : Store, onCreateUpdate env gw x =
        stepDeployment gw.id (env.builder gcc)
          (stepService gw.id (env.builder gcc)
            (stepRoleBinding gw.id (env.builder gcc)
              (stepRole gw.id (env.builder gcc)
                (stepServiceAccount gw.id (env.builder gcc) (initState x))))) :=
      fun x => by simp [onCreateUpdate, hres]
    rw [hrun, hrun]
    exact chain_replay gw.id (env.builder gcc) (hmdFix gcc) (hmdMeta gcc)
      (initState s)
      (initState (stepDeployment gw.id (env.builder gcc)
        (stepService gw.id (env.builder gcc)
          (stepRoleBinding gw.id (env.builder gcc)
            (stepRole gw.id (env.builder gcc)
              (stepServiceAccount gw.id (env.builder gcc)
                (initState s)))))).store)
      rfl rfl rfl rfl rfl

/-- Witness for C5 (amended): on a fresh store the second run leaves the
stored state unchanged. -/
theorem reconcile_idempotent_witness :
    (onCreateUpdate env0 gw0 (onCreateUpdate env0 gw0 emptyStore).store).store =
      (onCreateUpdate env0 gw0 emptyStore).store :=
  (reconcile_idempotent env0 gw0 emptyStore (fun _ _ _ => rfl)
    (fun _ _ _ => ⟨rfl, rfl, rfl⟩)).1

/-- C6: every upsert hands its operation the payload stamped with an owner
reference to the reconciling parent — the stamp happens before the store
lookup, on the create path and the update path alike — and consequently
(given a Deployment merge that preserves the desired payload's owner
references) every object a reconcile writes carries an owner reference to
the parent. -/
theorem writes_carry_parent_owner_ref (env : ReconcileEnv) (gw : MeshGateway)
    (s : Store)
    (hmdRefs : ∀ gcc o d,
      ((env.builder gcc).mergeDeployments o d).meta.ownerReferences =
        d.meta.ownerReferences) :
    (∀ w ∈ (onCreateUpdate env gw s).writes, parentRef gw.id ∈ w.2) ∧
    (∀ (α : Type) [HasMeta α] (sub : List (ObjectKey × α)) (ws : α)
      (op : Option α → α → α) (out : UpsertOutcome α),
      opIfNewOrOwned gw.id sub ws op = .ok out →
      out.stamped = setControllerReference gw.id ws ∧
      parentRef gw.id ∈ (HasMeta.meta out.stamped).ownerReferences ∧
      out.written = op out.observed out.stamped) := by
  constructor
  · cases hres : getGatewayClassConfigForGateway env.classGet env.configGet gw with
    | error e =>
      have hrun : onCreateUpdate env gw s =
          { initState s with error := some e } := by
        simp [onCreateUpdate, hres]
      rw [hrun]
      intro w hw
      exact absurd hw (List.not_mem_nil w)
    | ok gcc =>
      have hrun : onCreateUpdate env gw s =
          stepDeployment gw.id (env.builder gcc)
            (stepService gw.id (env.builder gcc)
              (stepRoleBinding gw.id (env.builder gcc)
                (stepRole gw.id (env.builder gcc)
                  (stepServiceAccount gw.id (env.builder gcc)
                    (initState s))))) := by
        simp [onCreateUpdate, hres]
      rw [hrun]
      intro w hw
      rcases stepDeployment_writes gw.id (env.builder gcc) _
          (hmdRefs gcc) w hw with hw | href
      · rcases stepService_writes gw.id (env.builder gcc) _ w hw with hw | href
        · rcases stepRoleBinding_writes gw.id (env.builder gcc) _ w hw with
            hw | href
          · rcases stepRole_writes gw.id (env.builder gcc) _ w hw with hw | href
            · rcases stepServiceAccount_writes gw.id (env.builder gcc) _ w hw with
                hw | href
              · exact absurd hw (List.not_mem_nil w)
              · exact href
            · exact href
          · exact href
        · exact href
      · exact href
  · intro α inst sub ws op out hok
    obtain ⟨hs, hw, -⟩ := opIfNewOrOwned_ok_inv hok
    refine ⟨hs, ?_, hw⟩
    rw [hs]
    exact parentRef_mem_setControllerReference gw.id ws

/-- Witness for C6: the fresh-store run's ServiceAccount write carries the
parent's owner reference. -/
theorem writes_carry_parent_owner_ref_witness :
    parentRef gw0.id ∈
      ((ChildKind.serviceAccount, [parentRef gw0.id]) :
        ChildKind × List OwnerReference).2 :=
  (writes_carry_parent_owner_ref env0 gw0 emptyStore (fun _ _ _ => rfl)).1
    (ChildKind.serviceAccount, [parentRef gw0.id]) (by decide)

/-- C7: when building the Deployment payload fails, the reconcile aborts
with that build error before any Deployment upsert is invoked: the
Deployment is never attempted, its sub-store is exactly the initial one,
and the already-applied ServiceAccount/Role/RoleBinding/Service steps stay
committed (the final store is the store after those four steps). -/
theorem deployment_build_abort (env : ReconcileEnv) (gw : MeshGateway)
    (s : Store) (msg : String) (gcc : Option GatewayClassConfig)
    (hres : getGatewayClassConfigForGateway env.classGet env.configGet gw =
      .ok gcc)
    (hbuild : (env.builder gcc).deployment = .error msg)
    (hfour : (stepService gw.id (env.builder gcc)
      (stepRoleBinding gw.id (env.builder gcc)
        (stepRole gw.id (env.builder gcc)
          (stepServiceAccount gw.id (env.builder gcc)
            (initState s))))).error = none) :
    (onCreateUpdate env gw s).error =
      some (.wrapped "unable to build deployment" (.buildError msg)) ∧
    (onCreateUpdate env gw s).store =
      (stepService gw.id (env.builder gcc)
        (stepRoleBinding gw.id (env.builder gcc)
          (stepRole gw.id (env.builder gcc)
            (stepServiceAccount gw.id (env.builder gcc)
              (initState s))))).store ∧
    (onCreateUpdate env gw s).store.deployments = s.deployments ∧
    ChildKind.deployment ∉ (onCreateUpdate env gw s).attempts := by
  obtain ⟨-, -, -, -, sa5, -, -, -, sa9, -⟩ :=
    stepServiceAccount_facts gw.id (env.builder gcc) (initState s)
  obtain ⟨-, -, -, -, ro5, -, -, -, ro9, -⟩ :=
    stepRole_facts gw.id (env.builder gcc)
      (stepServiceAccount gw.id (env.builder gcc) (initState s))
  obtain ⟨-, -, -, -, rb5, -, -, -, rb9, -⟩ :=
    stepRoleBinding_facts gw.id (env.builder gcc)
      (stepRole gw.id (env.builder gcc)
        (stepServiceAccount gw.id (env.builder gcc) (initState s)))
  obtain ⟨-, -, -, -, sv5, -, -, sv8, -⟩ :=
    stepService_facts gw.id (env.builder gcc)
      (stepRoleBinding gw.id (env.builder gcc)
        (stepRole gw.id (env.builder gcc)
          (stepServiceAccount gw.id (env.builder gcc) (initState s))))
  have hrun : onCreateUpdate env gw s =
      stepDeployment gw.id (env.builder gcc)
        (stepService gw.id (env.builder gcc)
          (stepRoleBinding gw.id (env.builder gcc)
            (stepRole gw.id (env.builder gcc)
              (stepServiceAccount gw.id (env.builder gcc)
                (initState s))))) := by
    simp [onCreateUpdate, hres]
  have hdep : stepDeployment gw.id (env.builder gcc)
      (stepService gw.id (env.builder gcc)
        (stepRoleBinding gw.id (env.builder gcc)
          (stepRole gw.id (env.builder gcc)
            (stepServiceAccount gw.id (env.builder gcc) (initState s))))) =
      { (stepService gw.id (env.builder gcc)
          (stepRoleBinding gw.id (env.builder gcc)
            (stepRole gw.id (env.builder gcc)
              (stepServiceAccount gw.id (env.builder gcc)
                (initState s))))) with
        error := some (.wrapped "unable to build deployment"
          (.buildError msg)) } := by
    simp [stepDeployment, hfour, hbuild]
  rw [hrun, hdep]
  refine ⟨rfl, rfl, ?_, ?_⟩
  · show (stepService gw.id (env.builder gcc)
      (stepRoleBinding gw.id (env.builder gcc)
        (stepRole gw.id (env.builder gcc)
          (stepServiceAccount gw.id (env.builder gcc)
            (initState s))))).store.deployments = s.deployments
    rw [sv5, rb5, ro5, sa5]
    rfl
  · show ChildKind.deployment ∉ (stepService gw.id (env.builder gcc)
      (stepRoleBinding gw.id (env.builder gcc)
        (stepRole gw.id (env.builder gcc)
          (stepServiceAccount gw.id (env.builder gcc)
            (initState s))))).attempts
    have h0 : ChildKind.deployment ∉ ([] : List ChildKind) :=
      List.not_mem_nil _
    have h1 := no_deployment_in_append (k := ChildKind.serviceAccount)
      (by intro hcon; exact ChildKind.noConfusion hcon) h0 sa9
    have h2 := no_deployment_in_append (k := ChildKind.role)
      (by intro hcon; exact ChildKind.noConfusion hcon) h1 ro9
    have h3 := no_deployment_in_append (k := ChildKind.roleBinding)
      (by intro hcon; exact ChildKind.noConfusion hcon) h2 rb9
    exact no_deployment_in_append (k := ChildKind.service)
      (by intro hcon; exact ChildKind.noConfusion hcon) h3 sv8

/-- Witness for C7: a builder with a failing Deployment aborts the
reconcile with the build error. -/
theorem deployment_build_abort_witness :
    (onCreateUpdate envBad gw0 emptyStore).error =
      some (.wrapped "unable to build deployment"
        (.buildError "invalid gateway class config")) :=
  (deployment_build_abort envBad gw0 emptyStore
    "invalid gateway class config" none rfl rfl (by decide)).1

/-- C8: resolving the class configuration is best-effort — an absent
gateway class, an absent referenced config, or a parameters reference with
the wrong group or kind yields a nil/zero-value configuration and no error
— while a lookup failure other than "not found" propagates as an error,
and an erroring resolution aborts the reconcile before any child upsert,
leaving the store untouched. -/
theorem gateway_class_config_resolution (env : ReconcileEnv)
    (gw : MeshGateway) :
    (env.classGet gw.gatewayClassName = .notFound →
      getGatewayClassConfigForGateway env.classGet env.configGet gw =
        .ok none) ∧
    (∀ c, env.classGet gw.gatewayClassName = .found c →
      c.parametersRef = none →
      getGatewayClassConfigForGateway env.classGet env.configGet gw =
        .ok (some {})) ∧
    (∀ c ref, env.classGet gw.gatewayClassName = .found c →
      c.parametersRef = some ref →
      (ref.group ≠ MeshGroup ∨ ref.kind ≠ "GatewayClassConfig") →
      getGatewayClassConfigForGateway env.classGet env.configGet gw =
        .ok none) ∧
    (∀ c ref, env.classGet gw.gatewayClassName = .found c →
      c.parametersRef = some ref → ref.group = MeshGroup →
      ref.kind = "GatewayClassConfig" → env.configGet ref.name = .notFound →
      getGatewayClassConfigForGateway env.classGet env.configGet gw =
        .ok none) ∧
    (∀ code, env.classGet gw.gatewayClassName = .err code →
      getGatewayClassConfigForGateway env.classGet env.configGet gw =
        .error (.storeError code)) ∧
    (∀ c ref code, env.classGet gw.gatewayClassName = .found c →
      c.parametersRef = some ref → ref.group = MeshGroup →
      ref.kind = "GatewayClassConfig" → env.configGet ref.name = .err code →
      getGatewayClassConfigForGateway env.classGet env.configGet gw =
        .error (.storeError code)) ∧
    (∀ e s, getGatewayClassConfigForGateway env.classGet env.configGet gw =
        .error e →
      (onCreateUpdate env gw s).store = s ∧
      (onCreateUpdate env gw s).attempts = [] ∧
      (onCreateUpdate env gw s).error = some e) := by
  refine ⟨?_, ?_, ?_, ?_, ?_, ?_, ?_⟩
  · intro h
    simp [getGatewayClassConfigForGateway, getGatewayClassForGateway, h,
      getGatewayClassConfigForGatewayClass]
  · intro c hfound hrefs
    simp [getGatewayClassConfigForGateway, getGatewayClassForGateway, hfound,
      getGatewayClassConfigForGatewayClass, hrefs]
  · intro c ref hfound hrefs hwrong
    have hcond : (ref.group != MeshGroup || ref.kind != "GatewayClassConfig") =
        true := by
      rcases hwrong with h | h
      · simp only [Bool.or_eq_true, bne_iff_ne, ne_eq]
        exact Or.inl h
      · simp only [Bool.or_eq_true, bne_iff_ne, ne_eq]
        exact Or.inr h
    simp [getGatewayClassConfigForGateway, getGatewayClassForGateway, hfound,
      getGatewayClassConfigForGatewayClass, hrefs, hcond]
  · intro c ref hfound hrefs hgroup hkind hcfg
    have hcond : (ref.group != MeshGroup || ref.kind != "GatewayClassConfig") =
        false := by
      simp [bne_iff_ne, hgroup, hkind]
    simp [getGatewayClassConfigForGateway, getGatewayClassForGateway, hfound,
      getGatewayClassConfigForGatewayClass, hrefs, hcond, hcfg]
  · intro code h
    simp [getGatewayClassConfigForGateway, getGatewayClassForGateway, h]
  · intro c ref code hfound hrefs hgroup hkind hcfg
    have hcond : (ref.group != MeshGroup || ref.kind != "GatewayClassConfig") =
        false := by
      simp [bne_iff_ne, hgroup, hkind]
    simp [getGatewayClassConfigForGateway, getGatewayClassForGateway, hfound,
      getGatewayClassConfigForGatewayClass, hrefs, hcond, hcfg]
  · intro e s herr
    have hrun : onCreateUpdate env gw s =
        { initState s with error := some e } := by
      simp [onCreateUpdate, herr]
    rw [hrun]
    exact ⟨rfl, rfl, rfl⟩

/-- Witness for C8: with no gateway class present, resolution yields a nil
configuration without error. -/
theorem gateway_class_config_resolution_witness :
    getGatewayClassConfigForGateway env0.classGet env0.configGet gw0 =
      .ok none :=
  (gateway_class_config_resolution env0 gw0).1 rfl

/-- C9: the Service merge is idempotent in its second argument — merging
the same observed Service onto the result of a first merge changes
nothing. -/
theorem mergeService_second_arg_idempotent (fromSvc toSvc : Option Service) :
    mergeService fromSvc (mergeService fromSvc toSvc) =
      mergeService fromSvc toSvc := by
  cases toSvc with
  | none => rw [mergeService_none_right, mergeService_none_right]
  | some t =>
    rw [mergeService_some_eq, mergeService_some_eq, serviceMergeOp_self_idem]

/-- C10: `areServicesEqual` and `mergeService` are total on nil inputs —
a nil Service on either side compares equal (even to a non-nil one), and
the merge returns its second argument unchanged. -/
theorem nil_services_total (a b : Option Service)
    (h : a = none ∨ b = none) :
    areServicesEqual a b = true ∧ mergeService a b = b := by
  rcases h with h | h
  · subst h
    exact ⟨by cases b <;> rfl, by cases b <;> rfl⟩
  · subst h
    exact ⟨by cases a <;> rfl, mergeService_none_right a⟩

/-- Witness for C10: a nil observed Service compares equal to a non-nil
desired one and the merge returns the desired pointer unchanged. -/
theorem nil_services_total_witness :
    areServicesEqual none (some builtService0) = true ∧
      mergeService none (some builtService0) = some builtService0 :=
  nil_services_total none (some builtService0) (Or.inl rfl)

end MeshGatewayController
